import Mathlib

/-!
Verification of the BBS repository: the LRP convergence engine
(`ConvergeLRPs`, specified in `spec.md` and exercised by the SQL-DB test
suite) and the payload encoding layer (`format/encoding.go`).

The convergence engine itself is not part of the source excerpt (only its
test suite is), so its data model, planner and executor are modelled from
the specification; each such definition carries a doc comment starting
with `Modelled from the spec:`.  The encoding layer is translated directly
from `format/encoding.go`.

Machine bytes are modelled as `Nat` values (with explicit `< 256` bounds
where the arithmetic requires them); fallible Go code returns `Except`,
and a Go runtime panic (out-of-bounds index) is modelled as `Option.none`.
-/

set_option maxHeartbeats 1000000

namespace BBS

/-- Modelled from the spec: the four observed replica states of an
ActualLRP (§3 Data model); the engine source is absent from the excerpt. -/
inductive ActualState
  | unclaimed
  | claimed
  | running
  | crashed
  deriving DecidableEq

/-- Modelled from the spec: a DesiredLRP record (§3); `schedulingInfo`
is opaque to the engine and passed through into start requests. -/
structure DesiredLRP where
  processGuid : String
  domain : String
  instances : Nat
  schedulingInfo : String
  deriving DecidableEq

/-- Modelled from the spec: an ActualLRP record (§3).  `cellId` is only
meaningful in Claimed/Running/Crashed states and `expireTime` only for
evacuating records. -/
structure ActualLRP where
  processGuid : String
  index : Nat
  domain : String
  evacuating : Bool
  state : ActualState
  cellId : String
  crashCount : Nat
  since : Int
  expireTime : Int
  deriving DecidableEq

/-- Modelled from the spec: a domain row `(name, expire_time)` (§3). -/
structure DomainRow where
  name : String
  expireTime : Int
  deriving DecidableEq

/-- Modelled from the spec: the composite retirement key
`ActualLRPKey{process_guid, index, domain}` (§6). -/
structure ActualLRPKey where
  processGuid : String
  index : Nat
  domain : String
  deriving DecidableEq

/-- The retirement key of an ActualLRP. -/
def ActualLRP.key (a : ActualLRP) : ActualLRPKey :=
  ⟨a.processGuid, a.index, a.domain⟩

/-- Modelled from the spec: a start request
`StartRequest{process_guid, scheduling_info, indices[]}` (§6). -/
structure StartRequest where
  processGuid : String
  schedulingInfo : String
  indices : List Nat
  deriving DecidableEq

/-- Modelled from the spec: an `(ActualLRPKey, SchedulingInfo)` pair
reported to the missing-cell handler (§6). -/
structure KeyWithSchedulingInfo where
  key : ActualLRPKey
  schedulingInfo : String
  deriving DecidableEq

/-- Modelled from the spec: the consistent snapshot `(D*, A*, Dom*)`
loaded at the start of a convergence run (§4.D). -/
structure Snapshot where
  desireds : List DesiredLRP
  actuals : List ActualLRP
  domains : List DomainRow
  deriving DecidableEq

/-- Modelled from the spec: the run parameters — `now` plus the
configurable constants `StaleUnclaimedThreshold` and `MaxRestarts`
(§4.D Constants). -/
structure ConvergenceConfig where
  now : Int
  staleUnclaimedThreshold : Int
  maxRestarts : Nat
  deriving DecidableEq

/-- Modelled from the spec: the Domain Registry freshness test
`IsFresh(d, now) = (domain d exists) ∧ (now < d.expire_time)`;
a missing domain is not fresh (§4.B). -/
def isFresh (doms : List DomainRow) (now : Int) (name : String) : Bool :=
  doms.any fun dom => dom.name == name && decide (now < dom.expireTime)

/-- Whether some non-evacuating ActualLRP exists at `(g, i)`. -/
def hasNonEvacuating (actuals : List ActualLRP) (g : String) (i : Nat) : Bool :=
  actuals.any fun a => a.processGuid == g && a.index == i && !a.evacuating

/-- Whether some DesiredLRP carries the given process guid. -/
def hasDesired (ds : List DesiredLRP) (g : String) : Bool :=
  ds.any fun d => d.processGuid == g

/-- Modelled from the spec: the stale-unclaimed test — state Unclaimed
and `(now − since) ≥ StaleUnclaimedThreshold` (§4.D). -/
def isStaleUnclaimed (cfg : ConvergenceConfig) (a : ActualLRP) : Bool :=
  a.state == ActualState.unclaimed &&
    decide (cfg.staleUnclaimedThreshold ≤ cfg.now - a.since)

/-- Modelled from the spec: the restartable-crashed test — state Crashed
and `crash_count ≤ MaxRestarts` (§4.D). -/
def isRestartableCrashed (cfg : ConvergenceConfig) (a : ActualLRP) : Bool :=
  a.state == ActualState.crashed && decide (a.crashCount ≤ cfg.maxRestarts)

/-- Modelled from the spec: the in-range start indices of a DesiredLRP —
every `i ∈ [0, instances)` that is a missing index, or holds a stale
unclaimed or restartable crashed non-evacuating ActualLRP (§4.D
classification pass; per §9(b), indices `≥ instances` are classified as
extra instead). -/
def startIndicesLow (cfg : ConvergenceConfig) (actuals : List ActualLRP)
    (d : DesiredLRP) : List Nat :=
  (List.range d.instances).filter fun i =>
    !hasNonEvacuating actuals d.processGuid i ||
      actuals.any fun a =>
        a.processGuid == d.processGuid && a.index == i && !a.evacuating &&
          (isStaleUnclaimed cfg a || isRestartableCrashed cfg a)

/-- Modelled from the spec: the evacuating-bridge indices of a DesiredLRP
beyond `[0, instances)` — evacuating records with no paired
non-evacuating record at the same `(g, i)` (§4.D); indices inside
`[0, instances)` with no non-evacuating record are already missing
indices. -/
def bridgeIndices (actuals : List ActualLRP) (d : DesiredLRP) : List Nat :=
  (actuals.filter fun a =>
      a.processGuid == d.processGuid && a.evacuating &&
        decide (d.instances ≤ a.index) &&
        !hasNonEvacuating actuals d.processGuid a.index).map
    fun a => a.index

/-- Modelled from the spec: the start request aggregated for one
DesiredLRP; guids with empty index lists are omitted (§4.D start-request
aggregation). -/
def startRequestFor (cfg : ConvergenceConfig) (actuals : List ActualLRP)
    (d : DesiredLRP) : Option StartRequest :=
  let idxs := startIndicesLow cfg actuals d ++ bridgeIndices actuals d
  if idxs.isEmpty then none
  else some ⟨d.processGuid, d.schedulingInfo, idxs⟩

/-- Modelled from the spec: the StartRequests output of the planner
(§4.D). -/
def startRequests (cfg : ConvergenceConfig) (s : Snapshot) :
    List StartRequest :=
  s.desireds.filterMap (startRequestFor cfg s.actuals)

/-- Modelled from the spec: the missing-cell entries contributed by one
DesiredLRP.  With a non-empty membership view these are its
non-evacuating Claimed/Running ActualLRPs in `[0, instances)` whose
`cell_id` is not a known cell, paired with the DesiredLRP's scheduling
info (§4.D).  With an empty view — "no cells known", §4.C — no cell
filter can be built at all and every non-evacuating record of the
DesiredLRP is reported, whatever its state and index: the repository's
empty-cell-set convergence test counts exactly one entry per
non-evacuating ActualLRP that has a DesiredLRP. -/
def missingCellKeysFor (cells : List String) (actuals : List ActualLRP)
    (d : DesiredLRP) : List KeyWithSchedulingInfo :=
  if cells.isEmpty then
    (actuals.filter fun a =>
        a.processGuid == d.processGuid && !a.evacuating).map
      fun a => ⟨a.key, d.schedulingInfo⟩
  else
    (actuals.filter fun a =>
        a.processGuid == d.processGuid && !a.evacuating &&
          decide (a.index < d.instances) &&
          (a.state == ActualState.claimed || a.state == ActualState.running) &&
          !cells.contains a.cellId).map
      fun a => ⟨a.key, d.schedulingInfo⟩

/-- Modelled from the spec: the KeysWithMissingCells output (§4.D). -/
def keysWithMissingCells (cells : List String) (s : Snapshot) :
    List KeyWithSchedulingInfo :=
  (s.desireds.map (missingCellKeysFor cells s.actuals)).flatten

/-- Modelled from the spec: the extra keys contributed by one DesiredLRP —
its non-evacuating ActualLRPs at indices `≥ instances`, retired only if
the DesiredLRP's domain is fresh (§4.D). -/
def extraKeysFor (doms : List DomainRow) (now : Int)
    (actuals : List ActualLRP) (d : DesiredLRP) : List ActualLRPKey :=
  if isFresh doms now d.domain then
    (actuals.filter fun a =>
        a.processGuid == d.processGuid && !a.evacuating &&
          decide (d.instances ≤ a.index)).map
      fun a => a.key
  else []

/-- Modelled from the spec: the orphan keys — non-evacuating ActualLRPs
whose process guid has no DesiredLRP, retired only if the ActualLRP's own
domain is fresh (§4.D). -/
def orphanKeys (doms : List DomainRow) (now : Int) (ds : List DesiredLRP)
    (actuals : List ActualLRP) : List ActualLRPKey :=
  (actuals.filter fun a =>
      !a.evacuating && !hasDesired ds a.processGuid &&
        isFresh doms now a.domain).map
    fun a => a.key

/-- Modelled from the spec: the KeysToRetire output (§4.D). -/
def keysToRetire (now : Int) (s : Snapshot) : List ActualLRPKey :=
  (s.desireds.map (extraKeysFor s.domains now s.actuals)).flatten ++
    orphanKeys s.domains now s.desireds s.actuals

/-- Modelled from the spec: the transition mutation — a non-evacuating
restartable crashed ActualLRP inside the index range of its DesiredLRP is
set back to Unclaimed, with its instance key cleared and `since` updated
(§3 Lifecycles, §4.A transition write). -/
def transitionCrashed (cfg : ConvergenceConfig) (ds : List DesiredLRP)
    (a : ActualLRP) : ActualLRP :=
  if !a.evacuating && isRestartableCrashed cfg a &&
      ds.any (fun d => d.processGuid == a.processGuid &&
        decide (a.index < d.instances)) then
    { a with state := ActualState.unclaimed, cellId := "", since := cfg.now }
  else a

/-- Modelled from the spec: the Unclaimed records inserted for one
DesiredLRP — one per missing index in `[0, instances)` and one per
evacuating-bridge index, created in the DesiredLRP's domain (§4.D). -/
def insertsFor (cfg : ConvergenceConfig) (actuals : List ActualLRP)
    (d : DesiredLRP) : List ActualLRP :=
  (((List.range d.instances).filter fun i =>
      !hasNonEvacuating actuals d.processGuid i) ++
    bridgeIndices actuals d).map
    fun i =>
      { processGuid := d.processGuid, index := i, domain := d.domain,
        evacuating := false, state := ActualState.unclaimed, cellId := "",
        crashCount := 0, since := cfg.now, expireTime := 0 }

/-- Modelled from the spec: all Unclaimed records inserted by one run. -/
def insertedActuals (cfg : ConvergenceConfig) (s : Snapshot) :
    List ActualLRP :=
  (s.desireds.map (insertsFor cfg s.actuals)).flatten

/-- Modelled from the spec: the ActualLRP table after the executor applies
the planner's mutations in the fixed order of §4.E — (1) expired
evacuating records are deleted, (2) restartable crashed records are
transitioned to Unclaimed, (3) missing/bridge Unclaimed records are
inserted. -/
def newActuals (cfg : ConvergenceConfig) (s : Snapshot) : List ActualLRP :=
  ((s.actuals.filter fun a =>
      !(a.evacuating && decide (a.expireTime ≤ cfg.now))).map
    (transitionCrashed cfg s.desireds)) ++ insertedActuals cfg s

/-- Modelled from the spec: the domain table after the executor deletes
every expired domain (§4.E). -/
def newDomains (cfg : ConvergenceConfig) (s : Snapshot) : List DomainRow :=
  s.domains.filter fun dom => decide (cfg.now < dom.expireTime)

/-- Modelled from the spec: one convergence run — the post-run snapshot
(DesiredLRPs are never touched by the engine, §3 Lifecycles) together with
the three output sets (§4.D, §4.E). -/
def converge (cfg : ConvergenceConfig) (cells : List String) (s : Snapshot) :
    Snapshot × List StartRequest × List KeyWithSchedulingInfo ×
      List ActualLRPKey :=
  (⟨s.desireds, newActuals cfg s, newDomains cfg s⟩,
    startRequests cfg s, keysWithMissingCells cells s, keysToRetire cfg.now s)

/-!
## Payload encoding (`format/encoding.go`)

Bytes are `Nat` values; byte slices are `List Nat`.  The two-byte
`Encoding` array is a pair of `Nat`s.  `Except Unit` stands for Go's
`([]byte, error)` results, and `Option` wraps results of code that can
panic (`none` = runtime panic from an out-of-bounds index or slice).
-/

/-- `EncodingOffset` from `format/encoding.go`. -/
def EncodingOffset : Nat := 2

/-- `LEGACY_UNENCODED = [2]byte{}` — two zero bytes. -/
def LEGACY_UNENCODED : Nat × Nat := (0, 0)

/-- `UNENCODED = [2]byte{'0', '0'}`. -/
def UNENCODED : Nat × Nat := (48, 48)

/-- `BASE64 = [2]byte{'0', '1'}`. -/
def BASE64 : Nat × Nat := (48, 49)

/-- `BASE64_ENCRYPTED = [2]byte{'0', '2'}`. -/
def BASE64_ENCRYPTED : Nat × Nat := (48, 50)

/-- The standard base64 alphabet (`A-Z a-z 0-9 + /`) as byte codes,
indexed by a 6-bit group, as used by Go's `base64.StdEncoding`. -/
def b64char (n : Nat) : Nat :=
  if n < 26 then 65 + n
  else if n < 52 then 97 + (n - 26)
  else if n < 62 then 48 + (n - 52)
  else if n = 62 then 43
  else 47

/-- The inverse base64 alphabet: `some` of the 6-bit group for alphabet
bytes, `none` for any other byte (Go's decode map entry `0xFF`). -/
def b64dec (c : Nat) : Option Nat :=
  if 65 ≤ c ∧ c ≤ 90 then some (c - 65)
  else if 97 ≤ c ∧ c ≤ 122 then some (26 + (c - 97))
  else if 48 ≤ c ∧ c ≤ 57 then some (52 + (c - 48))
  else if c = 43 then some 62
  else if c = 47 then some 63
  else none

/-- `encodeBase64` from `format/encoding.go`: Go's
`base64.StdEncoding.Encode` — big-endian packing of 3-byte groups into 4
alphabet bytes, with `'='` (byte 61) padding for a final 1- or 2-byte
group. -/
def encodeBase64 : List Nat → List Nat
  | [] => []
  | [x] => [b64char (x / 4), b64char (x % 4 * 16), 61, 61]
  | [x, y] =>
      [b64char (x / 4), b64char (x % 4 * 16 + y / 16),
        b64char (y % 16 * 4), 61]
  | x :: y :: z :: rest =>
      b64char (x / 4) :: b64char (x % 4 * 16 + y / 16) ::
        b64char (y % 16 * 4 + z / 64) :: b64char (z % 64) ::
          encodeBase64 rest

/-- `decodeBase64` from `format/encoding.go`: Go's
`base64.StdEncoding.Decode` — 4-byte quanta, `'='` padding allowed only to
close the final quantum, any unmapped byte or truncated quantum is a
`CorruptInputError`. -/
def decodeBase64 : List Nat → Except Unit (List Nat)
  | [] => Except.ok []
  | c1 :: c2 :: c3 :: c4 :: rest =>
      match b64dec c1, b64dec c2 with
      | some s1, some s2 =>
          if c3 = 61 then
            if c4 = 61 ∧ rest = [] then Except.ok [s1 * 4 + s2 / 16]
            else Except.error ()
          else
            match b64dec c3 with
            | some s3 =>
                if c4 = 61 then
                  if rest = [] then
                    Except.ok [s1 * 4 + s2 / 16, s2 % 16 * 16 + s3 / 4]
                  else Except.error ()
                else
                  match b64dec c4 with
                  | some s4 =>
                      match decodeBase64 rest with
                      | Except.ok t =>
                          Except.ok ((s1 * 4 + s2 / 16) ::
                            (s2 % 16 * 16 + s3 / 4) :: (s3 % 4 * 64 + s4) :: t)
                      | Except.error e => Except.error e
                  | none => Except.error ()
            | none => Except.error ()
      | _, _ => Except.error ()
  | _ => Except.error ()

/-- The `encryption.Encrypted` value produced and consumed by the
external `encryption.Cryptor` collaborator. -/
structure EncryptedPayload where
  keyLabel : List Nat
  nonce : List Nat
  cipherText : List Nat

/-- The external `encryption.Cryptor` interface, supplied to
`NewEncoder`; its implementation lives outside `format/encoding.go`. -/
structure Cryptor where
  encryptFn : List Nat → Except Unit EncryptedPayload
  decryptFn : EncryptedPayload → Except Unit (List Nat)

/-- `encrypt` from `format/encoding.go`: a one-byte label length, the
label, the nonce, then the ciphertext. -/
def encrypt (cr : Cryptor) (cleartext : List Nat) :
    Except Unit (List Nat) :=
  match cr.encryptFn cleartext with
  | Except.error e => Except.error e
  | Except.ok enc =>
      Except.ok ([enc.keyLabel.length] ++ enc.keyLabel ++ enc.nonce ++
        enc.cipherText)

/-- `decrypt` from `format/encoding.go`.  The Go code indexes
`encryptedData[0]` and slices the label, nonce and ciphertext without any
length checks; the model returns `none` (a panic) whenever a slice would
run past the data actually decoded.  (Go slicing inside the backing
array's capacity does not trap, but no in-bounds result is asserted in
that region below, so the model and the Go code agree wherever a theorem
speaks.) -/
def decrypt (cr : Cryptor) (nonceSize : Nat) (encryptedData : List Nat) :
    Option (Except Unit (List Nat)) :=
  match encryptedData with
  | [] => none
  | labelLength :: rest =>
      if labelLength ≤ rest.length then
        let rest2 := rest.drop labelLength
        if nonceSize ≤ rest2.length then
          some (cr.decryptFn
            { keyLabel := rest.take labelLength,
              nonce := rest2.take nonceSize,
              cipherText := rest2.drop nonceSize })
        else none
      else none

/-- `isEncoded` from `format/encoding.go`: at least `EncodingOffset`
bytes and a first byte in `'0'..'9'`. -/
def isEncoded (payload : List Nat) : Bool :=
  match payload with
  | b0 :: _ :: _ => decide (48 ≤ b0 ∧ b0 ≤ 57)
  | _ => false

/-- `encodingFromPayload` from `format/encoding.go`: the first two bytes
when `isEncoded`, otherwise `LEGACY_UNENCODED`.  (The unreachable
second match arm only satisfies totality: `isEncoded` guarantees two
bytes.) -/
def encodingFromPayload (payload : List Nat) : Nat × Nat :=
  if isEncoded payload then
    match payload with
    | b0 :: b1 :: _ => (b0, b1)
    | _ => LEGACY_UNENCODED
  else LEGACY_UNENCODED

/-- `Encode` from `format/encoding.go` (the `encoder.Encode` method). -/
def Encode (cr : Cryptor) (encoding : Nat × Nat) (payload : List Nat) :
    Except Unit (List Nat) :=
  if encoding = LEGACY_UNENCODED then Except.ok payload
  else if encoding = UNENCODED then
    Except.ok (48 :: 48 :: payload)
  else if encoding = BASE64 then
    Except.ok (48 :: 49 :: encodeBase64 payload)
  else if encoding = BASE64_ENCRYPTED then
    match encrypt cr payload with
    | Except.error e => Except.error e
    | Except.ok encrypted => Except.ok (48 :: 50 :: encodeBase64 encrypted)
  else Except.error ()

/-- `Decode` from `format/encoding.go` (the `encoder.Decode` method);
`none` models a panic escaping from `decrypt`. -/
def Decode (cr : Cryptor) (nonceSize : Nat) (payload : List Nat) :
    Option (Except Unit (List Nat)) :=
  let encoding := encodingFromPayload payload
  if encoding = LEGACY_UNENCODED then some (Except.ok payload)
  else if encoding = UNENCODED then
    some (Except.ok (payload.drop EncodingOffset))
  else if encoding = BASE64 then
    some (decodeBase64 (payload.drop EncodingOffset))
  else if encoding = BASE64_ENCRYPTED then
    match decodeBase64 (payload.drop EncodingOffset) with
    | Except.error e => some (Except.error e)
    | Except.ok encrypted => decrypt cr nonceSize encrypted
  else some (Except.error ())

/-!
## Lemmas about the base64 model
-/

theorem b64dec_b64char : ∀ n < 64, b64dec (b64char n) = some n := by decide
theorem b64char_ne_pad : ∀ n < 64, b64char n ≠ 61 := by decide

theorem decodeBase64_encodeBase64 :
    ∀ l : List Nat, (∀ b ∈ l, b < 256) →
      decodeBase64 (encodeBase64 l) = Except.ok l := by
  intro l
  induction l using encodeBase64.induct with
  | case1 =>
      intro _
      rfl
  | case2 x =>
      intro h
      have hx : x < 256 := h x (by simp)
      have h1 : x / 4 < 64 := by omega
      have h2 : x % 4 * 16 < 64 := by omega
      simp only [encodeBase64, decodeBase64, b64dec_b64char _ h1,
        b64dec_b64char _ h2, if_true, if_pos rfl]
      refine congrArg Except.ok ?_
      have e1 : x / 4 * 4 + x % 4 * 16 / 16 = x := by omega
      rw [e1]
  | case3 x y =>
      intro h
      have hx : x < 256 := h x (by simp)
      have hy : y < 256 := h y (by simp)
      have h1 : x / 4 < 64 := by omega
      have h2 : x % 4 * 16 + y / 16 < 64 := by omega
      have h3 : y % 16 * 4 < 64 := by omega
      simp only [encodeBase64, decodeBase64, b64dec_b64char _ h1,
        b64dec_b64char _ h2]
      rw [if_neg (b64char_ne_pad _ h3)]
      simp only [b64dec_b64char _ h3, if_true, if_pos rfl]
      refine congrArg Except.ok ?_
      have e1 : x / 4 * 4 + (x % 4 * 16 + y / 16) / 16 = x := by omega
      have e2 : (x % 4 * 16 + y / 16) % 16 * 16 + y % 16 * 4 / 4 = y := by omega
      rw [e1, e2]
  | case4 x y z rest ih =>
      intro h
      have hx : x < 256 := h x (by simp)
      have hy : y < 256 := h y (by simp)
      have hz : z < 256 := h z (by simp)
      have hrest : ∀ b ∈ rest, b < 256 := by
        intro b hb
        exact h b (by simp [hb])
      have h1 : x / 4 < 64 := by omega
      have h2 : x % 4 * 16 + y / 16 < 64 := by omega
      have h3 : y % 16 * 4 + z / 64 < 64 := by omega
      have h4 : z % 64 < 64 := by omega
      simp only [encodeBase64, decodeBase64, b64dec_b64char _ h1,
        b64dec_b64char _ h2]
      rw [if_neg (b64char_ne_pad _ h3)]
      simp only [b64dec_b64char _ h3]
      rw [if_neg (b64char_ne_pad _ h4)]
      simp only [b64dec_b64char _ h4, ih hrest]
      refine congrArg Except.ok ?_
      have e1 : x / 4 * 4 + (x % 4 * 16 + y / 16) / 16 = x := by omega
      have e2 : (x % 4 * 16 + y / 16) % 16 * 16 + (y % 16 * 4 + z / 64) / 4 = y := by
        omega
      have e3 : (y % 16 * 4 + z / 64) % 4 * 64 + z % 64 = z := by omega
      rw [e1, e2, e3]

theorem decodeBase64_length_le :
    ∀ l e, decodeBase64 l = Except.ok e → e.length ≤ l.length
  | [], e, h => by
      simp only [decodeBase64, Except.ok.injEq] at h
      simp [← h]
  | [_], e, h => by
      exact absurd h (by simp [decodeBase64])
  | [_, _], e, h => by
      exact absurd h (by simp [decodeBase64])
  | [_, _, _], e, h => by
      exact absurd h (by simp [decodeBase64])
  | c1 :: c2 :: c3 :: c4 :: rest, e, h => by
      simp only [decodeBase64] at h
      split at h
      · split at h
        · split at h
          · simp only [Except.ok.injEq] at h
            simp [← h]
          · exact absurd h (by simp)
        · split at h
          · split at h
            · split at h
              · simp only [Except.ok.injEq] at h
                simp [← h]
              · exact absurd h (by simp)
            · split at h
              · split at h
                next t hrec =>
                  simp only [Except.ok.injEq] at h
                  have := decodeBase64_length_le rest t hrec
                  simp [← h]
                  omega
                next => exact absurd h (by simp)
              · exact absurd h (by simp)
          · exact absurd h (by simp)
      · exact absurd h (by simp)
theorem decrypt_eq_none (cr : Cryptor) (ns : Nat) (e : List Nat) :
    decrypt cr ns e = none ↔
      (e = [] ∨ e.tail.length < e.headI ∨ e.tail.length - e.headI < ns) := by
  cases e with
  | nil => simp [decrypt]
  | cons labelLength rest =>
      simp only [decrypt, List.tail_cons, List.headI]
      by_cases h1 : labelLength ≤ rest.length
      · rw [if_pos h1]
        by_cases h2 : ns ≤ (rest.drop labelLength).length
        · rw [if_pos h2]
          simp only [List.length_drop] at h2
          simp
          omega
        · rw [if_neg h2]
          simp only [List.length_drop] at h2
          simp
          omega
      · rw [if_neg h1]
        simp
        omega

theorem decode_ne_self (cr : Cryptor) (ns : Nat) (b0 b1 : Nat)
    (rest : List Nat) (hd : 48 ≤ b0 ∧ b0 ≤ 57)
    (hcr : ∀ x out, cr.decryptFn x = Except.ok out →
      out.length ≤ x.cipherText.length) :
    Decode cr ns (b0 :: b1 :: rest) ≠ some (Except.ok (b0 :: b1 :: rest)) := by
  intro hdec
  have henc : encodingFromPayload (b0 :: b1 :: rest) = (b0, b1) := by
    simp [encodingFromPayload, isEncoded, hd]
  simp only [Decode, henc, EncodingOffset] at hdec
  have e1 : ¬((b0, b1) = LEGACY_UNENCODED) := by
    intro hc
    have hb0 : b0 = 0 := congrArg Prod.fst hc
    omega
  rw [if_neg e1] at hdec
  by_cases e2 : (b0, b1) = UNENCODED
  · rw [if_pos e2] at hdec
    simp only [List.drop_succ_cons, List.drop_zero, Option.some.injEq,
      Except.ok.injEq] at hdec
    have := congrArg List.length hdec
    simp at this
    omega
  · rw [if_neg e2] at hdec
    by_cases e3 : (b0, b1) = BASE64
    · rw [if_pos e3] at hdec
      simp only [List.drop_succ_cons, List.drop_zero, Option.some.injEq] at hdec
      have := decodeBase64_length_le rest _ hdec
      simp at this
      omega
    · rw [if_neg e3] at hdec
      by_cases e4 : (b0, b1) = BASE64_ENCRYPTED
      · rw [if_pos e4] at hdec
        simp only [List.drop_succ_cons, List.drop_zero] at hdec
        cases hdb : decodeBase64 rest with
        | error err => rw [hdb] at hdec; simp at hdec
        | ok e =>
            rw [hdb] at hdec
            have hlen : e.length ≤ rest.length := decodeBase64_length_le rest e hdb
            cases e with
            | nil => simp [decrypt] at hdec
            | cons labelLength r =>
                simp only [decrypt] at hdec
                by_cases h1 : labelLength ≤ r.length
                · rw [if_pos h1] at hdec
                  by_cases h2 : ns ≤ (r.drop labelLength).length
                  · rw [if_pos h2] at hdec
                    simp only [Option.some.injEq] at hdec
                    have hout := hcr _ _ hdec
                    simp only [List.length_drop] at hout
                    simp only [List.length_cons] at hlen
                    simp at hout
                    omega
                  · rw [if_neg h2] at hdec
                    simp at hdec
                · rw [if_neg h1] at hdec
                  simp at hdec
      · rw [if_neg e4] at hdec
        simp at hdec


/-- A trivial cryptor whose operations always fail; used to instantiate
witnesses and counterexamples. -/
def failingCryptor : Cryptor :=
  ⟨fun _ => Except.error (), fun _ => Except.error ()⟩

/-- C9: encoder round-trip.  For every byte sequence `p`,
`Decode (Encode UNENCODED p)` and `Decode (Encode BASE64 p)` return `p`
with no error, and `Decode (Encode LEGACY_UNENCODED p)` returns `p`
exactly when `p` is shorter than two bytes or its first byte is not an
ASCII digit.  The external cryptor is assumed never to produce a
plaintext longer than the ciphertext it is given (true of any AEAD
scheme, and only relevant to payloads that collide with the
`BASE64_ENCRYPTED` header). -/
theorem c9_encode_decode_round_trip (cr : Cryptor) (ns : Nat)
    (p : List Nat) (hb : ∀ b ∈ p, b < 256)
    (hcr : ∀ x out, cr.decryptFn x = Except.ok out →
      out.length ≤ x.cipherText.length) :
    (∀ q, Encode cr UNENCODED p = Except.ok q →
      Decode cr ns q = some (Except.ok p))
    ∧ (∀ q, Encode cr BASE64 p = Except.ok q →
      Decode cr ns q = some (Except.ok p))
    ∧ (∀ q, Encode cr LEGACY_UNENCODED p = Except.ok q →
      (Decode cr ns q = some (Except.ok p) ↔
        (p.length < 2 ∨ p.headI < 48 ∨ 57 < p.headI))) := by
  refine ⟨?_, ?_, ?_⟩
  · intro q hq
    have hq' : q = 48 :: 48 :: p := by
      simp [Encode, UNENCODED, LEGACY_UNENCODED] at hq
      exact hq.symm
    rw [hq']
    rfl
  · intro q hq
    have hq' : q = 48 :: 49 :: encodeBase64 p := by
      simp [Encode, BASE64, LEGACY_UNENCODED, UNENCODED] at hq
      exact hq.symm
    rw [hq']
    have : Decode cr ns (48 :: 49 :: encodeBase64 p) =
        some (decodeBase64 (encodeBase64 p)) := rfl
    rw [this, decodeBase64_encodeBase64 p hb]
  · intro q hq
    have hq' : q = p := by
      simp [Encode, LEGACY_UNENCODED] at hq
      exact hq.symm
    rw [hq']
    constructor
    · intro hdec
      by_contra hcon
      push_neg at hcon
      obtain ⟨hlen, hdig1, hdig2⟩ := hcon
      match p, hlen with
      | b0 :: b1 :: rest, _ =>
          simp only [List.headI] at hdig1 hdig2
          exact decode_ne_self cr ns b0 b1 rest ⟨hdig1, hdig2⟩ hcr hdec
    · intro hcond
      have hne : isEncoded p = false := by
        match p with
        | [] => rfl
        | [b] => rfl
        | b0 :: b1 :: rest =>
            simp only [List.length_cons, List.headI] at hcond
            simp only [isEncoded, decide_eq_false_iff_not]
            omega
      simp [Decode, encodingFromPayload, hne, LEGACY_UNENCODED]

/-- Witness for C9 at `p = [7, 200]` with the failing cryptor. -/
theorem c9_witness :
    ((∀ b ∈ [7, 200], b < 256)
      ∧ (∀ x out, failingCryptor.decryptFn x = Except.ok out →
        out.length ≤ x.cipherText.length))
    ∧ ((∀ q, Encode failingCryptor UNENCODED [7, 200] = Except.ok q →
        Decode failingCryptor 12 q = some (Except.ok [7, 200]))
      ∧ (∀ q, Encode failingCryptor BASE64 [7, 200] = Except.ok q →
        Decode failingCryptor 12 q = some (Except.ok [7, 200]))
      ∧ (∀ q, Encode failingCryptor LEGACY_UNENCODED [7, 200] = Except.ok q →
        (Decode failingCryptor 12 q = some (Except.ok [7, 200]) ↔
          (([7, 200] : List Nat).length < 2 ∨ ([7, 200] : List Nat).headI < 48
            ∨ 57 < ([7, 200] : List Nat).headI)))) :=
  ⟨⟨by decide, fun x out h => by simp [failingCryptor] at h⟩,
    c9_encode_decode_round_trip failingCryptor 12 [7, 200] (by decide)
      (fun x out h => by simp [failingCryptor] at h)⟩


/-- C10 counterexample: on the two-byte input `"02"` — a well-formed
BASE64_ENCRYPTED header whose base64 body is empty — `Decode` panics
(Go indexes `encryptedData[0]` on an empty slice), modelled as `none`. -/
theorem c10_decode_counterexample :
    Decode failingCryptor 12 [48, 50] = none := rfl

/-- C10 amended: `Decode` returns normally (a payload or an error) on
every input except in the BASE64_ENCRYPTED branch, where it panics
exactly when the base64-decoded body is too short to hold the one-byte
label length, the label of that length, and the NonceSize-byte nonce. -/
theorem c10_decode_totality (cr : Cryptor) (ns : Nat) (p : List Nat) :
    Decode cr ns p = none ↔
      (encodingFromPayload p = BASE64_ENCRYPTED ∧
        ∃ e, decodeBase64 (p.drop EncodingOffset) = Except.ok e ∧
          (e = [] ∨ e.tail.length < e.headI ∨ e.tail.length - e.headI < ns)) := by
  simp only [Decode]
  by_cases e1 : encodingFromPayload p = LEGACY_UNENCODED
  · rw [if_pos e1]
    constructor
    · intro h
      exact absurd h (by simp)
    · rintro ⟨hq, -⟩
      exact absurd (e1.symm.trans hq) (by decide)
  · rw [if_neg e1]
    by_cases e2 : encodingFromPayload p = UNENCODED
    · rw [if_pos e2]
      constructor
      · intro h
        exact absurd h (by simp)
      · rintro ⟨hq, -⟩
        exact absurd (e2.symm.trans hq) (by decide)
    · rw [if_neg e2]
      by_cases e3 : encodingFromPayload p = BASE64
      · rw [if_pos e3]
        constructor
        · intro h
          exact absurd h (by simp)
        · rintro ⟨hq, -⟩
          exact absurd (e3.symm.trans hq) (by decide)
      · rw [if_neg e3]
        by_cases e4 : encodingFromPayload p = BASE64_ENCRYPTED
        · rw [if_pos e4]
          cases hdb : decodeBase64 (p.drop EncodingOffset) with
          | error err =>
              constructor
              · intro h
                exact absurd h (by simp)
              · rintro ⟨-, e', he', -⟩
                exact absurd he' (by simp)
          | ok e =>
              simp only [e4, true_and]
              rw [decrypt_eq_none]
              constructor
              · intro h
                exact ⟨e, rfl, h⟩
              · rintro ⟨e', he', hcond⟩
                simp only [Except.ok.injEq] at he'
                rw [he']
                exact hcond
        · rw [if_neg e4]
          constructor
          · intro h
            exact absurd h (by simp)
          · rintro ⟨hq, -⟩
            exact absurd hq e4

/-- Witness for the C10 amendment: the failing input `"02"` satisfies the
characterization, and a large enough body does not panic. -/
theorem c10_witness :
    (Decode failingCryptor 12 [48, 50] = none ↔
      (encodingFromPayload [48, 50] = BASE64_ENCRYPTED ∧
        ∃ e, decodeBase64 (([48, 50] : List Nat).drop EncodingOffset) = Except.ok e ∧
          (e = [] ∨ e.tail.length < e.headI ∨ e.tail.length - e.headI < 12))) :=
  c10_decode_totality failingCryptor 12 [48, 50]



theorem transitionCrashed_fields (cfg : ConvergenceConfig)
    (ds : List DesiredLRP) (a : ActualLRP) :
    (transitionCrashed cfg ds a).processGuid = a.processGuid
      ∧ (transitionCrashed cfg ds a).index = a.index
      ∧ (transitionCrashed cfg ds a).domain = a.domain
      ∧ (transitionCrashed cfg ds a).evacuating = a.evacuating
      ∧ (transitionCrashed cfg ds a).expireTime = a.expireTime := by
  simp only [transitionCrashed]
  split <;> exact ⟨rfl, rfl, rfl, rfl, rfl⟩

theorem startRequestFor_of_mem (cfg : ConvergenceConfig)
    (acts : List ActualLRP) (d : DesiredLRP) (i : Nat)
    (hi : i ∈ startIndicesLow cfg acts d ++ bridgeIndices acts d) :
    ∃ req, startRequestFor cfg acts d = some req
      ∧ req.processGuid = d.processGuid ∧ i ∈ req.indices := by
  refine ⟨⟨d.processGuid, d.schedulingInfo,
    startIndicesLow cfg acts d ++ bridgeIndices acts d⟩, ?_, rfl, hi⟩
  simp only [startRequestFor]
  rw [if_neg]
  intro hemp
  rw [List.isEmpty_iff] at hemp
  rw [hemp] at hi
  exact List.not_mem_nil i hi

theorem mem_startRequests (cfg : ConvergenceConfig) (s : Snapshot)
    (req : StartRequest) :
    req ∈ startRequests cfg s ↔
      ∃ d ∈ s.desireds, startRequestFor cfg s.actuals d = some req := by
  simp [startRequests, List.mem_filterMap]

/-- C2: missing-index fill.  For every DesiredLRP and every index
`i ∈ [0, instances)` with no non-evacuating ActualLRP, one convergence
run inserts an Unclaimed non-evacuating ActualLRP at `(g, i)` in the
DesiredLRP's domain and includes `i` in a start request for `g`; no
freshness hypothesis is required, so this holds in fresh and expired
domains alike. -/
theorem c2_missing_index_fill (cfg : ConvergenceConfig)
    (cells : List String) (s : Snapshot) (d : DesiredLRP) (i : Nat)
    (hd : d ∈ s.desireds) (hi : i < d.instances)
    (hmiss : hasNonEvacuating s.actuals d.processGuid i = false) :
    (∃ b ∈ (converge cfg cells s).1.actuals,
      b.processGuid = d.processGuid ∧ b.index = i ∧ b.evacuating = false
        ∧ b.state = ActualState.unclaimed ∧ b.domain = d.domain)
    ∧ (∃ req ∈ (converge cfg cells s).2.1,
      req.processGuid = d.processGuid ∧ i ∈ req.indices) := by
  have hmem : i ∈ (List.range d.instances).filter
      (fun i => !hasNonEvacuating s.actuals d.processGuid i) := by
    rw [List.mem_filter, List.mem_range]
    exact ⟨hi, by rw [hmiss]; rfl⟩
  constructor
  · refine ⟨ActualLRP.mk d.processGuid i d.domain false
      ActualState.unclaimed "" 0 cfg.now 0, ?_, rfl, rfl, rfl, rfl, rfl⟩
    show _ ∈ newActuals cfg s
    rw [newActuals, List.mem_append]
    right
    rw [insertedActuals, List.mem_flatten]
    refine ⟨insertsFor cfg s.actuals d, List.mem_map_of_mem _ hd, ?_⟩
    rw [insertsFor]
    exact List.mem_map_of_mem _ (List.mem_append_left _ hmem)
  · have hlow : i ∈ startIndicesLow cfg s.actuals d := by
      rw [startIndicesLow, List.mem_filter, List.mem_range]
      refine ⟨hi, ?_⟩
      rw [hmiss]
      rfl
    obtain ⟨req, hsome, hguid, hidx⟩ := startRequestFor_of_mem cfg s.actuals d i
      (List.mem_append_left _ hlow)
    exact ⟨req, (mem_startRequests cfg s req).mpr ⟨d, hd, hsome⟩, hguid, hidx⟩

/-- Witness for C2: a fresh-domain DesiredLRP with two instances and no
actuals at all gets both indices filled. -/
theorem c2_witness :
    (DesiredLRP.mk "g" "dom" 2 "si" ∈
        (Snapshot.mk [DesiredLRP.mk "g" "dom" 2 "si"] [] []).desireds
      ∧ (1 : Nat) < (DesiredLRP.mk "g" "dom" 2 "si").instances
      ∧ hasNonEvacuating (Snapshot.mk [DesiredLRP.mk "g" "dom" 2 "si"] [] []).actuals
          (DesiredLRP.mk "g" "dom" 2 "si").processGuid 1 = false)
    ∧ ((∃ b ∈ (converge (ConvergenceConfig.mk 100 30 3) []
          (Snapshot.mk [DesiredLRP.mk "g" "dom" 2 "si"] [] [])).1.actuals,
        b.processGuid = (DesiredLRP.mk "g" "dom" 2 "si").processGuid
          ∧ b.index = 1 ∧ b.evacuating = false
          ∧ b.state = ActualState.unclaimed
          ∧ b.domain = (DesiredLRP.mk "g" "dom" 2 "si").domain)
      ∧ (∃ req ∈ (converge (ConvergenceConfig.mk 100 30 3) []
          (Snapshot.mk [DesiredLRP.mk "g" "dom" 2 "si"] [] [])).2.1,
        req.processGuid = (DesiredLRP.mk "g" "dom" 2 "si").processGuid
          ∧ 1 ∈ req.indices)) :=
  ⟨⟨by decide, by decide, by decide⟩,
    c2_missing_index_fill (ConvergenceConfig.mk 100 30 3) []
      (Snapshot.mk [DesiredLRP.mk "g" "dom" 2 "si"] [] [])
      (DesiredLRP.mk "g" "dom" 2 "si") 1 (by decide) (by decide) (by decide)⟩


theorem transitionCrashed_of_evacuating (cfg : ConvergenceConfig)
    (ds : List DesiredLRP) (a : ActualLRP) (hev : a.evacuating = true) :
    transitionCrashed cfg ds a = a := by
  simp [transitionCrashed, hev]

theorem insertedActuals_mem (cfg : ConvergenceConfig) (s : Snapshot)
    (d : DesiredLRP) (i : Nat) (hd : d ∈ s.desireds)
    (hi : i ∈ ((List.range d.instances).filter
        (fun i => !hasNonEvacuating s.actuals d.processGuid i)) ++
      bridgeIndices s.actuals d) :
    ActualLRP.mk d.processGuid i d.domain false ActualState.unclaimed ""
      0 cfg.now 0 ∈ newActuals cfg s := by
  rw [newActuals, List.mem_append]
  right
  rw [insertedActuals, List.mem_flatten]
  refine ⟨insertsFor cfg s.actuals d, List.mem_map_of_mem _ hd, ?_⟩
  rw [insertsFor]
  exact List.mem_map_of_mem _ hi

/-- C4: evacuating bridge.  For every evacuating ActualLRP at `(g, i)`
with no non-evacuating record at the same `(g, i)` and whose DesiredLRP
exists, one run inserts a new non-evacuating Unclaimed ActualLRP at
`(g, i)` and includes `i` in a start request for `g`, while the
evacuating record itself survives the run unchanged unless its
`expire_time ≤ now`. -/
theorem c4_evacuating_bridge (cfg : ConvergenceConfig)
    (cells : List String) (s : Snapshot) (a : ActualLRP) (d : DesiredLRP)
    (ha : a ∈ s.actuals) (hev : a.evacuating = true)
    (hnopair : hasNonEvacuating s.actuals a.processGuid a.index = false)
    (hd : d ∈ s.desireds) (hguid : d.processGuid = a.processGuid) :
    (∃ b ∈ (converge cfg cells s).1.actuals,
      b.processGuid = a.processGuid ∧ b.index = a.index
        ∧ b.evacuating = false ∧ b.state = ActualState.unclaimed)
    ∧ (∃ req ∈ (converge cfg cells s).2.1,
      req.processGuid = a.processGuid ∧ a.index ∈ req.indices)
    ∧ (cfg.now < a.expireTime → a ∈ (converge cfg cells s).1.actuals) := by
  have hnopair' : hasNonEvacuating s.actuals d.processGuid a.index = false := by
    rw [hguid]
    exact hnopair
  have hidx : a.index ∈ ((List.range d.instances).filter
      (fun i => !hasNonEvacuating s.actuals d.processGuid i)) ++
        bridgeIndices s.actuals d := by
    by_cases hlt : a.index < d.instances
    · apply List.mem_append_left
      rw [List.mem_filter, List.mem_range]
      exact ⟨hlt, by rw [hnopair']; rfl⟩
    · apply List.mem_append_right
      rw [bridgeIndices]
      refine List.mem_map.mpr ⟨a, ?_, rfl⟩
      rw [List.mem_filter]
      refine ⟨ha, ?_⟩
      simp [hguid, hev, hnopair, hnopair', Nat.le_of_not_lt hlt]
  refine ⟨⟨ActualLRP.mk d.processGuid a.index d.domain false
      ActualState.unclaimed "" 0 cfg.now 0,
      insertedActuals_mem cfg s d a.index hd hidx, hguid, rfl, rfl, rfl⟩,
    ?_, ?_⟩
  · have hidx2 : a.index ∈ startIndicesLow cfg s.actuals d ++
        bridgeIndices s.actuals d := by
      rcases List.mem_append.mp hidx with hlow | hbr
      · apply List.mem_append_left
        rw [List.mem_filter] at hlow
        rw [startIndicesLow, List.mem_filter]
        refine ⟨hlow.1, ?_⟩
        rw [Bool.or_eq_true]
        left
        exact hlow.2
      · exact List.mem_append_right _ hbr
    obtain ⟨req, hsome, hg, hin⟩ :=
      startRequestFor_of_mem cfg s.actuals d a.index hidx2
    refine ⟨req, (mem_startRequests cfg s req).mpr ⟨d, hd, hsome⟩, ?_, hin⟩
    rw [hg, hguid]
  · intro hexp
    show a ∈ newActuals cfg s
    rw [newActuals, List.mem_append]
    left
    rw [← transitionCrashed_of_evacuating cfg s.desireds a hev]
    apply List.mem_map_of_mem
    rw [List.mem_filter]
    refine ⟨ha, ?_⟩
    simp [hev]
    omega

/-- Witness for C4: a lone evacuating Running record at `(g, 0)` whose
DesiredLRP wants one instance. -/
theorem c4_witness :
    ((ActualLRP.mk "g" 0 "dom" true ActualState.running "c9" 0 95 500 ∈
        (Snapshot.mk [DesiredLRP.mk "g" "dom" 1 "si"]
          [ActualLRP.mk "g" 0 "dom" true ActualState.running "c9" 0 95 500]
          [DomainRow.mk "dom" 200]).actuals)
      ∧ hasNonEvacuating (Snapshot.mk [DesiredLRP.mk "g" "dom" 1 "si"]
          [ActualLRP.mk "g" 0 "dom" true ActualState.running "c9" 0 95 500]
          [DomainRow.mk "dom" 200]).actuals "g" 0 = false)
    ∧ ((∃ b ∈ (converge (ConvergenceConfig.mk 100 30 3) ["c1"]
          (Snapshot.mk [DesiredLRP.mk "g" "dom" 1 "si"]
            [ActualLRP.mk "g" 0 "dom" true ActualState.running "c9" 0 95 500]
            [DomainRow.mk "dom" 200])).1.actuals,
        b.processGuid = "g" ∧ b.index = 0 ∧ b.evacuating = false
          ∧ b.state = ActualState.unclaimed)
      ∧ (∃ req ∈ (converge (ConvergenceConfig.mk 100 30 3) ["c1"]
          (Snapshot.mk [DesiredLRP.mk "g" "dom" 1 "si"]
            [ActualLRP.mk "g" 0 "dom" true ActualState.running "c9" 0 95 500]
            [DomainRow.mk "dom" 200])).2.1,
        req.processGuid = "g" ∧ 0 ∈ req.indices)
      ∧ ((100 : Int) < 500 →
        ActualLRP.mk "g" 0 "dom" true ActualState.running "c9" 0 95 500 ∈
          (converge (ConvergenceConfig.mk 100 30 3) ["c1"]
            (Snapshot.mk [DesiredLRP.mk "g" "dom" 1 "si"]
              [ActualLRP.mk "g" 0 "dom" true ActualState.running "c9" 0 95 500]
              [DomainRow.mk "dom" 200])).1.actuals)) :=
  ⟨⟨by decide, by decide⟩,
    c4_evacuating_bridge (ConvergenceConfig.mk 100 30 3) ["c1"]
      (Snapshot.mk [DesiredLRP.mk "g" "dom" 1 "si"]
        [ActualLRP.mk "g" 0 "dom" true ActualState.running "c9" 0 95 500]
        [DomainRow.mk "dom" 200])
      (ActualLRP.mk "g" 0 "dom" true ActualState.running "c9" 0 95 500)
      (DesiredLRP.mk "g" "dom" 1 "si")
      (by decide) (by decide) (by decide) (by decide) (by decide)⟩


theorem transitionCrashed_of_not_restartable (cfg : ConvergenceConfig)
    (ds : List DesiredLRP) (a : ActualLRP)
    (h : isRestartableCrashed cfg a = false) :
    transitionCrashed cfg ds a = a := by
  simp [transitionCrashed, h]

theorem noInsertAt (cfg : ConvergenceConfig) (s : Snapshot) (a : ActualLRP)
    (ha : a ∈ s.actuals) (hev : a.evacuating = false) :
    ∀ b ∈ insertedActuals cfg s,
      ¬(b.processGuid = a.processGuid ∧ b.index = a.index) := by
  have hpair : hasNonEvacuating s.actuals a.processGuid a.index = true := by
    rw [hasNonEvacuating, List.any_eq_true]
    exact ⟨a, ha, by simp [hev]⟩
  rintro b hb ⟨hbg, hbi⟩
  rw [insertedActuals, List.mem_flatten] at hb
  obtain ⟨li, hli, hbli⟩ := hb
  rw [List.mem_map] at hli
  obtain ⟨d, hd, rfl⟩ := hli
  rw [insertsFor, List.mem_map] at hbli
  obtain ⟨i, hi, hbeq⟩ := hbli
  rw [← hbeq] at hbg hbi
  simp only at hbg hbi
  rcases List.mem_append.mp hi with hmiss | hbr
  · rw [List.mem_filter] at hmiss
    have := hmiss.2
    rw [hbg, hbi, hpair] at this
    exact absurd this (by simp)
  · rw [bridgeIndices, List.mem_map] at hbr
    obtain ⟨c, hc, hci⟩ := hbr
    rw [List.mem_filter] at hc
    have := hc.2
    rw [Bool.and_eq_true, Bool.and_eq_true] at this
    have hnp := this.2
    rw [hci, hbi, hbg, hpair] at hnp
    exact absurd hnp (by simp)

/-- C7 counterexample: a stale Unclaimed non-evacuating ActualLRP whose
index lies at or beyond its DesiredLRP's `instances` is classified as
extra, so its index is not included in any start request, contrary to the
claim, which asks for a start for every stale unclaimed record under an
existing DesiredLRP. -/
theorem c7_counterexample :
    (isStaleUnclaimed (ConvergenceConfig.mk 100 30 3)
        (ActualLRP.mk "g" 1 "dom" false ActualState.unclaimed "" 0 10 0) = true
      ∧ ActualLRP.mk "g" 1 "dom" false ActualState.unclaimed "" 0 10 0 ∈
        (Snapshot.mk [DesiredLRP.mk "g" "dom" 1 "si"]
          [ActualLRP.mk "g" 1 "dom" false ActualState.unclaimed "" 0 10 0]
          [DomainRow.mk "dom" 200]).actuals
      ∧ hasDesired (Snapshot.mk [DesiredLRP.mk "g" "dom" 1 "si"]
          [ActualLRP.mk "g" 1 "dom" false ActualState.unclaimed "" 0 10 0]
          [DomainRow.mk "dom" 200]).desireds "g" = true)
    ∧ ∀ req ∈ (converge (ConvergenceConfig.mk 100 30 3) ["c1"]
        (Snapshot.mk [DesiredLRP.mk "g" "dom" 1 "si"]
          [ActualLRP.mk "g" 1 "dom" false ActualState.unclaimed "" 0 10 0]
          [DomainRow.mk "dom" 200])).2.1,
      ¬(req.processGuid = "g" ∧ 1 ∈ req.indices) := by decide

/-- C7 amended: for every non-evacuating stale Unclaimed ActualLRP whose
DesiredLRP exists and whose index is inside `[0, instances)`, the run
includes its index in the start request for its process guid, keeps the
record itself unchanged, and performs no insert at its `(g, i)`; no
freshness hypothesis is needed, so this holds in fresh and expired
domains alike. -/
theorem c7_stale_unclaimed_start (cfg : ConvergenceConfig)
    (cells : List String) (s : Snapshot) (a : ActualLRP) (d : DesiredLRP)
    (ha : a ∈ s.actuals) (hev : a.evacuating = false)
    (hstale : isStaleUnclaimed cfg a = true)
    (hd : d ∈ s.desireds) (hguid : d.processGuid = a.processGuid)
    (hlt : a.index < d.instances) :
    (∃ req ∈ (converge cfg cells s).2.1,
      req.processGuid = a.processGuid ∧ a.index ∈ req.indices)
    ∧ a ∈ (converge cfg cells s).1.actuals
    ∧ (∀ b ∈ insertedActuals cfg s,
      ¬(b.processGuid = a.processGuid ∧ b.index = a.index)) := by
  have hst : a.state = ActualState.unclaimed := by
    rw [isStaleUnclaimed, Bool.and_eq_true, beq_iff_eq] at hstale
    exact hstale.1
  refine ⟨?_, ?_, noInsertAt cfg s a ha hev⟩
  · have hlow : a.index ∈ startIndicesLow cfg s.actuals d := by
      rw [startIndicesLow, List.mem_filter, List.mem_range]
      refine ⟨hlt, ?_⟩
      rw [Bool.or_eq_true]
      right
      rw [List.any_eq_true]
      exact ⟨a, ha, by simp [hguid, hev, hstale]⟩
    obtain ⟨req, hsome, hg, hin⟩ :=
      startRequestFor_of_mem cfg s.actuals d a.index
        (List.mem_append_left _ hlow)
    refine ⟨req, (mem_startRequests cfg s req).mpr ⟨d, hd, hsome⟩, ?_, hin⟩
    rw [hg, hguid]
  · show a ∈ newActuals cfg s
    rw [newActuals, List.mem_append]
    left
    have hnr : isRestartableCrashed cfg a = false := by
      simp [isRestartableCrashed, hst]
    rw [← transitionCrashed_of_not_restartable cfg s.desireds a hnr]
    apply List.mem_map_of_mem
    rw [List.mem_filter]
    exact ⟨ha, by simp [hev]⟩

/-- Witness for the C7 amendment: a stale Unclaimed record at index 0 of
a one-instance DesiredLRP. -/
theorem c7_witness :
    ((ActualLRP.mk "g" 0 "dom" false ActualState.unclaimed "" 0 10 0 ∈
        (Snapshot.mk [DesiredLRP.mk "g" "dom" 1 "si"]
          [ActualLRP.mk "g" 0 "dom" false ActualState.unclaimed "" 0 10 0]
          [DomainRow.mk "dom" 200]).actuals)
      ∧ isStaleUnclaimed (ConvergenceConfig.mk 100 30 3)
        (ActualLRP.mk "g" 0 "dom" false ActualState.unclaimed "" 0 10 0) = true)
    ∧ ((∃ req ∈ (converge (ConvergenceConfig.mk 100 30 3) ["c1"]
          (Snapshot.mk [DesiredLRP.mk "g" "dom" 1 "si"]
            [ActualLRP.mk "g" 0 "dom" false ActualState.unclaimed "" 0 10 0]
            [DomainRow.mk "dom" 200])).2.1,
        req.processGuid = "g" ∧ 0 ∈ req.indices)
      ∧ ActualLRP.mk "g" 0 "dom" false ActualState.unclaimed "" 0 10 0 ∈
        (converge (ConvergenceConfig.mk 100 30 3) ["c1"]
          (Snapshot.mk [DesiredLRP.mk "g" "dom" 1 "si"]
            [ActualLRP.mk "g" 0 "dom" false ActualState.unclaimed "" 0 10 0]
            [DomainRow.mk "dom" 200])).1.actuals
      ∧ (∀ b ∈ insertedActuals (ConvergenceConfig.mk 100 30 3)
          (Snapshot.mk [DesiredLRP.mk "g" "dom" 1 "si"]
            [ActualLRP.mk "g" 0 "dom" false ActualState.unclaimed "" 0 10 0]
            [DomainRow.mk "dom" 200]),
        ¬(b.processGuid = "g" ∧ b.index = 0))) :=
  ⟨⟨by decide, by decide⟩,
    c7_stale_unclaimed_start (ConvergenceConfig.mk 100 30 3) ["c1"]
      (Snapshot.mk [DesiredLRP.mk "g" "dom" 1 "si"]
        [ActualLRP.mk "g" 0 "dom" false ActualState.unclaimed "" 0 10 0]
        [DomainRow.mk "dom" 200])
      (ActualLRP.mk "g" 0 "dom" false ActualState.unclaimed "" 0 10 0)
      (DesiredLRP.mk "g" "dom" 1 "si")
      (by decide) (by decide) (by decide) (by decide) (by decide) (by decide)⟩


/-- C3 counterexample: a non-evacuating restartable Crashed ActualLRP at
an index at or beyond its DesiredLRP's `instances` is classified as
extra: it is neither transitioned to Unclaimed nor started, contrary to
the claim, which asks this for every restartable crashed record whose
DesiredLRP exists. -/
theorem c3_counterexample :
    ((ActualLRP.mk "g" 1 "dom" false ActualState.crashed "" 0 10 0).state =
        ActualState.crashed
      ∧ (ActualLRP.mk "g" 1 "dom" false ActualState.crashed "" 0 10 0).crashCount ≤
        (ConvergenceConfig.mk 100 30 3).maxRestarts
      ∧ ActualLRP.mk "g" 1 "dom" false ActualState.crashed "" 0 10 0 ∈
        (Snapshot.mk [DesiredLRP.mk "g" "dom" 1 "si"]
          [ActualLRP.mk "g" 1 "dom" false ActualState.crashed "" 0 10 0]
          [DomainRow.mk "dom" 200]).actuals
      ∧ hasDesired (Snapshot.mk [DesiredLRP.mk "g" "dom" 1 "si"]
          [ActualLRP.mk "g" 1 "dom" false ActualState.crashed "" 0 10 0]
          [DomainRow.mk "dom" 200]).desireds "g" = true)
    ∧ (∀ b ∈ (converge (ConvergenceConfig.mk 100 30 3) ["c1"]
        (Snapshot.mk [DesiredLRP.mk "g" "dom" 1 "si"]
          [ActualLRP.mk "g" 1 "dom" false ActualState.crashed "" 0 10 0]
          [DomainRow.mk "dom" 200])).1.actuals,
      ¬(b.processGuid = "g" ∧ b.index = 1 ∧ b.state = ActualState.unclaimed))
    ∧ (∀ req ∈ (converge (ConvergenceConfig.mk 100 30 3) ["c1"]
        (Snapshot.mk [DesiredLRP.mk "g" "dom" 1 "si"]
          [ActualLRP.mk "g" 1 "dom" false ActualState.crashed "" 0 10 0]
          [DomainRow.mk "dom" 200])).2.1,
      ¬(req.processGuid = "g" ∧ 1 ∈ req.indices)) := by decide

/-- C3 amended: for every non-evacuating Crashed ActualLRP with
`crash_count ≤ MaxRestarts` whose DesiredLRP exists and whose index is
inside `[0, instances)`, after one convergence run the record at its
`(g, i)` is Unclaimed and its index appears in the indices of some
StartRequest for its process guid. -/
theorem c3_restartable_crashed (cfg : ConvergenceConfig)
    (cells : List String) (s : Snapshot) (a : ActualLRP) (d : DesiredLRP)
    (ha : a ∈ s.actuals) (hev : a.evacuating = false)
    (hst : a.state = ActualState.crashed)
    (hcc : a.crashCount ≤ cfg.maxRestarts)
    (hd : d ∈ s.desireds) (hguid : d.processGuid = a.processGuid)
    (hlt : a.index < d.instances) :
    (∃ b ∈ (converge cfg cells s).1.actuals,
      b.processGuid = a.processGuid ∧ b.index = a.index
        ∧ b.evacuating = false ∧ b.state = ActualState.unclaimed)
    ∧ (∃ req ∈ (converge cfg cells s).2.1,
      req.processGuid = a.processGuid ∧ a.index ∈ req.indices) := by
  have hrc : isRestartableCrashed cfg a = true := by
    simp [isRestartableCrashed, hst, hcc]
  constructor
  · refine ⟨transitionCrashed cfg s.desireds a, ?_, ?_⟩
    · show _ ∈ newActuals cfg s
      rw [newActuals, List.mem_append]
      left
      apply List.mem_map_of_mem
      rw [List.mem_filter]
      exact ⟨ha, by simp [hev]⟩
    · have hcond : (!a.evacuating && isRestartableCrashed cfg a &&
          s.desireds.any (fun d => d.processGuid == a.processGuid &&
            decide (a.index < d.instances))) = true := by
        rw [hev, hrc]
        simp only [Bool.not_false, Bool.true_and]
        rw [List.any_eq_true]
        exact ⟨d, hd, by simp [hguid, hlt]⟩
      rw [transitionCrashed, if_pos hcond]
      exact ⟨rfl, rfl, hev, rfl⟩
  · have hlow : a.index ∈ startIndicesLow cfg s.actuals d := by
      rw [startIndicesLow, List.mem_filter, List.mem_range]
      refine ⟨hlt, ?_⟩
      rw [Bool.or_eq_true]
      right
      rw [List.any_eq_true]
      refine ⟨a, ha, ?_⟩
      simp [hguid, hev, hrc]
    obtain ⟨req, hsome, hg, hin⟩ :=
      startRequestFor_of_mem cfg s.actuals d a.index
        (List.mem_append_left _ hlow)
    refine ⟨req, (mem_startRequests cfg s req).mpr ⟨d, hd, hsome⟩, ?_, hin⟩
    rw [hg, hguid]

/-- Witness for the C3 amendment: a restartable crashed record at index 0
of a one-instance DesiredLRP. -/
theorem c3_witness :
    ((ActualLRP.mk "g" 0 "dom" false ActualState.crashed "" 2 10 0 ∈
        (Snapshot.mk [DesiredLRP.mk "g" "dom" 1 "si"]
          [ActualLRP.mk "g" 0 "dom" false ActualState.crashed "" 2 10 0]
          [DomainRow.mk "dom" 200]).actuals)
      ∧ (2 : Nat) ≤ (ConvergenceConfig.mk 100 30 3).maxRestarts)
    ∧ ((∃ b ∈ (converge (ConvergenceConfig.mk 100 30 3) ["c1"]
          (Snapshot.mk [DesiredLRP.mk "g" "dom" 1 "si"]
            [ActualLRP.mk "g" 0 "dom" false ActualState.crashed "" 2 10 0]
            [DomainRow.mk "dom" 200])).1.actuals,
        b.processGuid = "g" ∧ b.index = 0 ∧ b.evacuating = false
          ∧ b.state = ActualState.unclaimed)
      ∧ (∃ req ∈ (converge (ConvergenceConfig.mk 100 30 3) ["c1"]
          (Snapshot.mk [DesiredLRP.mk "g" "dom" 1 "si"]
            [ActualLRP.mk "g" 0 "dom" false ActualState.crashed "" 2 10 0]
            [DomainRow.mk "dom" 200])).2.1,
        req.processGuid = "g" ∧ 0 ∈ req.indices)) :=
  ⟨⟨by decide, by decide⟩,
    c3_restartable_crashed (ConvergenceConfig.mk 100 30 3) ["c1"]
      (Snapshot.mk [DesiredLRP.mk "g" "dom" 1 "si"]
        [ActualLRP.mk "g" 0 "dom" false ActualState.crashed "" 2 10 0]
        [DomainRow.mk "dom" 200])
      (ActualLRP.mk "g" 0 "dom" false ActualState.crashed "" 2 10 0)
      (DesiredLRP.mk "g" "dom" 1 "si")
      (by decide) (by decide) (by decide) (by decide) (by decide) (by decide)
      (by decide)⟩



theorem mem_insertedActuals (cfg : ConvergenceConfig) (s : Snapshot)
    (b : ActualLRP) :
    b ∈ insertedActuals cfg s ↔
      ∃ d ∈ s.desireds,
        ∃ i ∈ ((List.range d.instances).filter
            (fun i => !hasNonEvacuating s.actuals d.processGuid i)) ++
          bridgeIndices s.actuals d,
          b = ActualLRP.mk d.processGuid i d.domain false
            ActualState.unclaimed "" 0 cfg.now 0 := by
  rw [insertedActuals, List.mem_flatten]
  constructor
  · rintro ⟨li, hli, hb⟩
    rw [List.mem_map] at hli
    obtain ⟨d, hd, rfl⟩ := hli
    rw [insertsFor, List.mem_map] at hb
    obtain ⟨i, hi, rfl⟩ := hb
    exact ⟨d, hd, i, hi, rfl⟩
  · rintro ⟨d, hd, i, hi, rfl⟩
    refine ⟨insertsFor cfg s.actuals d, List.mem_map_of_mem _ hd, ?_⟩
    rw [insertsFor]
    exact List.mem_map_of_mem _ hi

/-- C6: expired-record cleanup.  After one convergence run every Domain
still stored satisfies `now < expire_time`, and — independently — every
evacuating ActualLRP still stored satisfies `now < expire_time`;
equivalently, every expired domain and every expired evacuating record is
absent, each guarantee holding for every run on its own. -/
theorem c6_expired_cleanup (cfg : ConvergenceConfig) (cells : List String)
    (s : Snapshot) :
    (∀ dom ∈ (converge cfg cells s).1.domains, cfg.now < dom.expireTime)
    ∧ (∀ a ∈ (converge cfg cells s).1.actuals, a.evacuating = true →
      cfg.now < a.expireTime) := by
  constructor
  · intro dom hdom
    have : dom ∈ newDomains cfg s := hdom
    rw [newDomains, List.mem_filter] at this
    exact of_decide_eq_true this.2
  · intro a ha hev
    have hmem : a ∈ newActuals cfg s := ha
    rw [newActuals, List.mem_append] at hmem
    rcases hmem with hleft | hins
    · rw [List.mem_map] at hleft
      obtain ⟨a0, ha0, hta⟩ := hleft
      rw [List.mem_filter] at ha0
      obtain ⟨-, hkeep⟩ := ha0
      have hfields := transitionCrashed_fields cfg s.desireds a0
      have hev0 : a0.evacuating = true := by
        rw [← hfields.2.2.2.1, hta, hev]
      have hexp : (transitionCrashed cfg s.desireds a0).expireTime =
          a0.expireTime := hfields.2.2.2.2
      rw [← hta, hexp]
      rw [hev0] at hkeep
      simp at hkeep
      omega
    · rw [mem_insertedActuals] at hins
      obtain ⟨d, hd, i, hi, rfl⟩ := hins
      exact absurd hev (by simp)

/-- Witness for C6: a run over an expired and an unexpired domain plus
expired and unexpired evacuating records; both universals hold of the
post-run snapshot. -/
theorem c6_witness :
    (∀ dom ∈ (converge (ConvergenceConfig.mk 100 30 3) []
        (Snapshot.mk []
          [ActualLRP.mk "g" 0 "fresh" true ActualState.unclaimed "" 0 10 500,
            ActualLRP.mk "h" 0 "fresh" true ActualState.unclaimed "" 0 10 100]
          [DomainRow.mk "fresh" 200, DomainRow.mk "old" 50])).1.domains,
      (100 : Int) < dom.expireTime)
    ∧ (∀ a ∈ (converge (ConvergenceConfig.mk 100 30 3) []
        (Snapshot.mk []
          [ActualLRP.mk "g" 0 "fresh" true ActualState.unclaimed "" 0 10 500,
            ActualLRP.mk "h" 0 "fresh" true ActualState.unclaimed "" 0 10 100]
          [DomainRow.mk "fresh" 200, DomainRow.mk "old" 50])).1.actuals,
      a.evacuating = true → (100 : Int) < a.expireTime) :=
  c6_expired_cleanup (ConvergenceConfig.mk 100 30 3) []
    (Snapshot.mk []
      [ActualLRP.mk "g" 0 "fresh" true ActualState.unclaimed "" 0 10 500,
        ActualLRP.mk "h" 0 "fresh" true ActualState.unclaimed "" 0 10 100]
      [DomainRow.mk "fresh" 200, DomainRow.mk "old" 50])

/-- C5 counterexample: with an empty cell set, an evacuating Claimed
ActualLRP (a non-Unclaimed state) of an existing DesiredLRP does not
appear in KeysWithMissingCells — only non-evacuating records of a
DesiredLRP are reported, as the repository's empty-cell-set test count
pins down. -/
theorem c5_counterexample :
    ((ActualLRP.mk "g" 0 "dom" true ActualState.claimed "c9" 0 10 500).state ≠
        ActualState.unclaimed
      ∧ ActualLRP.mk "g" 0 "dom" true ActualState.claimed "c9" 0 10 500 ∈
        (Snapshot.mk [DesiredLRP.mk "g" "dom" 1 "si"]
          [ActualLRP.mk "g" 0 "dom" true ActualState.claimed "c9" 0 10 500]
          [DomainRow.mk "dom" 200]).actuals)
    ∧ ∀ k ∈ (converge (ConvergenceConfig.mk 100 30 3) []
        (Snapshot.mk [DesiredLRP.mk "g" "dom" 1 "si"]
          [ActualLRP.mk "g" 0 "dom" true ActualState.claimed "c9" 0 10 500]
          [DomainRow.mk "dom" 200])).2.2.1,
      k.key ≠ (ActualLRP.mk "g" 0 "dom" true ActualState.claimed "c9" 0 10 500).key := by
  decide

/-- C5 amended: if the cell-membership set is empty, every non-evacuating
ActualLRP whose DesiredLRP exists — whatever its state and index —
appears in KeysWithMissingCells with that DesiredLRP's scheduling info;
evacuating and orphaned records are not reported. -/
theorem c5_empty_cell_set (cfg : ConvergenceConfig) (s : Snapshot)
    (a : ActualLRP) (d : DesiredLRP)
    (ha : a ∈ s.actuals) (hev : a.evacuating = false)
    (hd : d ∈ s.desireds) (hguid : d.processGuid = a.processGuid) :
    ∃ k ∈ (converge cfg [] s).2.2.1,
      k.key = a.key ∧ k.schedulingInfo = d.schedulingInfo := by
  refine ⟨⟨a.key, d.schedulingInfo⟩, ?_, rfl, rfl⟩
  show _ ∈ keysWithMissingCells [] s
  rw [keysWithMissingCells, List.mem_flatten]
  refine ⟨missingCellKeysFor [] s.actuals d, List.mem_map_of_mem _ hd, ?_⟩
  have hdef : missingCellKeysFor [] s.actuals d =
      (s.actuals.filter fun a =>
        a.processGuid == d.processGuid && !a.evacuating).map
        (fun a => ⟨a.key, d.schedulingInfo⟩) := rfl
  rw [hdef]
  refine List.mem_map.mpr ⟨a, ?_, rfl⟩
  rw [List.mem_filter]
  exact ⟨ha, by simp [hguid, hev]⟩

/-- Witness for the C5 amendment: a Crashed record at index 0 under an
empty cell set is reported. -/
theorem c5_witness :
    ((ActualLRP.mk "g" 0 "dom" false ActualState.crashed "" 9 10 0 ∈
        (Snapshot.mk [DesiredLRP.mk "g" "dom" 1 "si"]
          [ActualLRP.mk "g" 0 "dom" false ActualState.crashed "" 9 10 0]
          [DomainRow.mk "dom" 200]).actuals)
      ∧ (ActualLRP.mk "g" 0 "dom" false ActualState.crashed "" 9 10 0).evacuating =
        false)
    ∧ (∃ k ∈ (converge (ConvergenceConfig.mk 100 30 3) []
        (Snapshot.mk [DesiredLRP.mk "g" "dom" 1 "si"]
          [ActualLRP.mk "g" 0 "dom" false ActualState.crashed "" 9 10 0]
          [DomainRow.mk "dom" 200])).2.2.1,
      k.key = (ActualLRP.mk "g" 0 "dom" false ActualState.crashed "" 9 10 0).key
        ∧ k.schedulingInfo = "si") :=
  ⟨⟨by decide, by decide⟩,
    c5_empty_cell_set (ConvergenceConfig.mk 100 30 3)
      (Snapshot.mk [DesiredLRP.mk "g" "dom" 1 "si"]
        [ActualLRP.mk "g" 0 "dom" false ActualState.crashed "" 9 10 0]
        [DomainRow.mk "dom" 200])
      (ActualLRP.mk "g" 0 "dom" false ActualState.crashed "" 9 10 0)
      (DesiredLRP.mk "g" "dom" 1 "si")
      (by decide) (by decide) (by decide) (by decide)⟩

/-- C1: freshness gates retirement.  For a non-evacuating ActualLRP that
is extra (some DesiredLRP with its guid has `instances ≤ index`; the gate
is that DesiredLRP's domain) or orphaned (no DesiredLRP with its guid;
the gate is the record's own domain), its key is in KeysToRetire iff the
gating domain is fresh — in a non-fresh domain it is never included.
DesiredLRP guids are assumed unique (they key the desired table). -/
theorem c1_freshness_gates_retirement (cfg : ConvergenceConfig)
    (cells : List String) (s : Snapshot) (a : ActualLRP)
    (ha : a ∈ s.actuals) (hev : a.evacuating = false)
    (hnd : (s.desireds.map (fun d => d.processGuid)).Nodup) :
    (∀ d ∈ s.desireds, d.processGuid = a.processGuid →
      d.instances ≤ a.index →
      (a.key ∈ (converge cfg cells s).2.2.2 ↔
        isFresh s.domains cfg.now d.domain = true))
    ∧ (hasDesired s.desireds a.processGuid = false →
      (a.key ∈ (converge cfg cells s).2.2.2 ↔
        isFresh s.domains cfg.now a.domain = true)) := by
  constructor
  · intro d hd hdg hge
    show a.key ∈ keysToRetire cfg.now s ↔ _
    constructor
    · intro hmem
      rw [keysToRetire, List.mem_append] at hmem
      rcases hmem with hextra | horphan
      · rw [List.mem_flatten] at hextra
        obtain ⟨li, hli, hk⟩ := hextra
        rw [List.mem_map] at hli
        obtain ⟨d', hd', rfl⟩ := hli
        rw [extraKeysFor] at hk
        by_cases hfr : isFresh s.domains cfg.now d'.domain = true
        · rw [if_pos hfr] at hk
          rw [List.mem_map] at hk
          obtain ⟨b, hbf, hbk⟩ := hk
          rw [List.mem_filter] at hbf
          have hbg : b.processGuid = d'.processGuid := by
            have := hbf.2
            rw [Bool.and_eq_true, Bool.and_eq_true] at this
            exact beq_iff_eq.mp this.1.1
          have hba : b.processGuid = a.processGuid :=
            congrArg ActualLRPKey.processGuid hbk
          have : d' = d := by
            refine List.inj_on_of_nodup_map hnd hd' hd ?_
            rw [← hbg, hba, hdg]
          rw [← this]
          exact hfr
        · rw [if_neg hfr] at hk
          exact absurd hk (List.not_mem_nil _)
      · rw [orphanKeys, List.mem_map] at horphan
        obtain ⟨b, hbf, hbk⟩ := horphan
        rw [List.mem_filter] at hbf
        have hnodes : hasDesired s.desireds b.processGuid = false := by
          have := hbf.2
          rw [Bool.and_eq_true, Bool.and_eq_true] at this
          have h2 := this.1.2
          cases h : hasDesired s.desireds b.processGuid
          · rfl
          · rw [h] at h2
            exact absurd h2 (by simp)
        have hba : b.processGuid = a.processGuid :=
          congrArg ActualLRPKey.processGuid hbk
        have hdes : hasDesired s.desireds b.processGuid = true := by
          rw [hasDesired, List.any_eq_true]
          exact ⟨d, hd, by simp [hdg, hba]⟩
        rw [hnodes] at hdes
        exact absurd hdes (by simp)
    · intro hfr
      show a.key ∈ keysToRetire cfg.now s
      rw [keysToRetire, List.mem_append]
      left
      rw [List.mem_flatten]
      refine ⟨extraKeysFor s.domains cfg.now s.actuals d,
        List.mem_map_of_mem _ hd, ?_⟩
      rw [extraKeysFor, if_pos hfr]
      refine List.mem_map.mpr ⟨a, ?_, rfl⟩
      rw [List.mem_filter]
      exact ⟨ha, by simp [hdg, hev, hge]⟩
  · intro hno
    show a.key ∈ keysToRetire cfg.now s ↔ _
    constructor
    · intro hmem
      rw [keysToRetire, List.mem_append] at hmem
      rcases hmem with hextra | horphan
      · rw [List.mem_flatten] at hextra
        obtain ⟨li, hli, hk⟩ := hextra
        rw [List.mem_map] at hli
        obtain ⟨d', hd', rfl⟩ := hli
        rw [extraKeysFor] at hk
        by_cases hfr : isFresh s.domains cfg.now d'.domain = true
        · rw [if_pos hfr] at hk
          rw [List.mem_map] at hk
          obtain ⟨b, hbf, hbk⟩ := hk
          rw [List.mem_filter] at hbf
          have hbg : b.processGuid = d'.processGuid := by
            have := hbf.2
            rw [Bool.and_eq_true, Bool.and_eq_true] at this
            exact beq_iff_eq.mp this.1.1
          have hba : b.processGuid = a.processGuid :=
            congrArg ActualLRPKey.processGuid hbk
          have : hasDesired s.desireds a.processGuid = true := by
            rw [hasDesired, List.any_eq_true]
            exact ⟨d', hd', by simp [← hba, hbg]⟩
          rw [hno] at this
          exact absurd this (by simp)
        · rw [if_neg hfr] at hk
          exact absurd hk (List.not_mem_nil _)
      · rw [orphanKeys, List.mem_map] at horphan
        obtain ⟨b, hbf, hbk⟩ := horphan
        rw [List.mem_filter] at hbf
        have hbd : b.domain = a.domain :=
          congrArg ActualLRPKey.domain hbk
        have := hbf.2
        rw [Bool.and_eq_true, Bool.and_eq_true] at this
        rw [← hbd]
        exact this.2
    · intro hfr
      show a.key ∈ keysToRetire cfg.now s
      rw [keysToRetire, List.mem_append]
      right
      rw [orphanKeys]
      refine List.mem_map.mpr ⟨a, ?_, rfl⟩
      rw [List.mem_filter]
      exact ⟨ha, by simp [hev, hno, hfr]⟩

/-- Witness for C1: an extra Claimed record at `(g, 1)` of a one-instance
fresh-domain DesiredLRP, and an orphan record with no DesiredLRP: both
`iff`s hold with a fresh gate. -/
theorem c1_witness :
    ((ActualLRP.mk "g" 1 "dom" false ActualState.claimed "c1" 0 10 0 ∈
        (Snapshot.mk [DesiredLRP.mk "g" "dom" 1 "si"]
          [ActualLRP.mk "g" 1 "dom" false ActualState.claimed "c1" 0 10 0]
          [DomainRow.mk "dom" 200]).actuals)
      ∧ ((Snapshot.mk [DesiredLRP.mk "g" "dom" 1 "si"]
          [ActualLRP.mk "g" 1 "dom" false ActualState.claimed "c1" 0 10 0]
          [DomainRow.mk "dom" 200]).desireds.map
            (fun d => d.processGuid)).Nodup)
    ∧ ((∀ d ∈ (Snapshot.mk [DesiredLRP.mk "g" "dom" 1 "si"]
          [ActualLRP.mk "g" 1 "dom" false ActualState.claimed "c1" 0 10 0]
          [DomainRow.mk "dom" 200]).desireds,
        d.processGuid = "g" → d.instances ≤ 1 →
        ((ActualLRP.mk "g" 1 "dom" false ActualState.claimed "c1" 0 10 0).key ∈
            (converge (ConvergenceConfig.mk 100 30 3) ["c1"]
              (Snapshot.mk [DesiredLRP.mk "g" "dom" 1 "si"]
                [ActualLRP.mk "g" 1 "dom" false ActualState.claimed "c1" 0 10 0]
                [DomainRow.mk "dom" 200])).2.2.2 ↔
          isFresh [DomainRow.mk "dom" 200] 100 d.domain = true))
      ∧ (hasDesired [DesiredLRP.mk "g" "dom" 1 "si"] "g" = false →
        ((ActualLRP.mk "g" 1 "dom" false ActualState.claimed "c1" 0 10 0).key ∈
            (converge (ConvergenceConfig.mk 100 30 3) ["c1"]
              (Snapshot.mk [DesiredLRP.mk "g" "dom" 1 "si"]
                [ActualLRP.mk "g" 1 "dom" false ActualState.claimed "c1" 0 10 0]
                [DomainRow.mk "dom" 200])).2.2.2 ↔
          isFresh [DomainRow.mk "dom" 200] 100 "dom" = true))) :=
  ⟨⟨by decide, by decide⟩,
    c1_freshness_gates_retirement (ConvergenceConfig.mk 100 30 3) ["c1"]
      (Snapshot.mk [DesiredLRP.mk "g" "dom" 1 "si"]
        [ActualLRP.mk "g" 1 "dom" false ActualState.claimed "c1" 0 10 0]
        [DomainRow.mk "dom" 200])
      (ActualLRP.mk "g" 1 "dom" false ActualState.claimed "c1" 0 10 0)
      (by decide) (by decide) (by decide)⟩


/-- The quiescence predicate of C8: a DesiredLRP "needs no convergence
action" — every index in `[0, instances)` is populated, every in-range
record is healthy (not stale, not restartable-crashed, and its cell known
when Claimed/Running), every out-of-range record's destructive retirement
is suppressed by a non-fresh domain, every evacuating record is paired
and unexpired, and — since an empty membership view reports every
non-evacuating record as missing its cell — the view is non-empty
whenever the DesiredLRP has any non-evacuating record. -/
def NoActionNeeded (cfg : ConvergenceConfig) (cells : List String)
    (s : Snapshot) (d : DesiredLRP) : Prop :=
  (∀ i < d.instances, hasNonEvacuating s.actuals d.processGuid i = true)
  ∧ (∀ a ∈ s.actuals, a.processGuid = d.processGuid →
      (a.evacuating = false →
        (a.index < d.instances →
          isStaleUnclaimed cfg a = false ∧ isRestartableCrashed cfg a = false
            ∧ ((a.state = ActualState.claimed ∨ a.state = ActualState.running) →
              cells.contains a.cellId = true))
        ∧ (d.instances ≤ a.index →
          isFresh s.domains cfg.now d.domain = false))
      ∧ (a.evacuating = true →
        hasNonEvacuating s.actuals a.processGuid a.index = true
          ∧ cfg.now < a.expireTime))
  ∧ (cells.isEmpty = true → ∀ a ∈ s.actuals,
      a.processGuid = d.processGuid → a.evacuating = true)

instance (cfg : ConvergenceConfig) (cells : List String) (s : Snapshot)
    (d : DesiredLRP) : Decidable (NoActionNeeded cfg cells s d) := by
  unfold NoActionNeeded
  infer_instance

theorem startIndicesLow_eq_nil (cfg : ConvergenceConfig)
    (cells : List String) (s : Snapshot) (d : DesiredLRP)
    (hq : NoActionNeeded cfg cells s d) :
    startIndicesLow cfg s.actuals d = [] := by
  rw [startIndicesLow, List.filter_eq_nil_iff]
  intro i hi
  rw [List.mem_range] at hi
  intro habs
  rw [Bool.or_eq_true] at habs
  rcases habs with hmiss | hany
  · rw [hq.1 i hi] at hmiss
    exact absurd hmiss (by simp)
  · rw [List.any_eq_true] at hany
    obtain ⟨a, ha, hcond⟩ := hany
    rw [Bool.and_eq_true, Bool.and_eq_true, Bool.and_eq_true] at hcond
    obtain ⟨⟨⟨hg, hidx⟩, hnev⟩, hsc⟩ := hcond
    have hg' : a.processGuid = d.processGuid := beq_iff_eq.mp hg
    have hidx' : a.index = i := beq_iff_eq.mp hidx
    have hnev' : a.evacuating = false := by
      cases h : a.evacuating
      · rfl
      · rw [h] at hnev
        exact absurd hnev (by simp)
    have hh := ((hq.2.1 a ha hg').1 hnev').1 (by rw [hidx']; exact hi)
    rw [Bool.or_eq_true] at hsc
    rcases hsc with h1 | h1
    · rw [hh.1] at h1
      exact absurd h1 (by simp)
    · rw [hh.2.1] at h1
      exact absurd h1 (by simp)

theorem bridgeIndices_eq_nil (cfg : ConvergenceConfig)
    (cells : List String) (s : Snapshot) (d : DesiredLRP)
    (hq : NoActionNeeded cfg cells s d) :
    bridgeIndices s.actuals d = [] := by
  rw [bridgeIndices]
  rw [List.filter_eq_nil_iff.mpr]
  · rfl
  intro a ha habs
  rw [Bool.and_eq_true, Bool.and_eq_true, Bool.and_eq_true] at habs
  obtain ⟨⟨⟨hg, hev⟩, -⟩, hnp⟩ := habs
  have hg' : a.processGuid = d.processGuid := beq_iff_eq.mp hg
  have hpair := ((hq.2.1 a ha hg').2 hev).1
  rw [hg'] at hpair
  rw [hpair] at hnp
  exact absurd hnp (by simp)

theorem insertsFor_eq_nil (cfg : ConvergenceConfig) (cells : List String)
    (s : Snapshot) (d : DesiredLRP)
    (hq : NoActionNeeded cfg cells s d) :
    insertsFor cfg s.actuals d = [] := by
  rw [insertsFor]
  have h1 : (List.range d.instances).filter
      (fun i => !hasNonEvacuating s.actuals d.processGuid i) = [] := by
    rw [List.filter_eq_nil_iff]
    intro i hi habs
    rw [List.mem_range] at hi
    rw [hq.1 i hi] at habs
    exact absurd habs (by simp)
  rw [h1, bridgeIndices_eq_nil cfg cells s d hq]
  rfl

theorem extraKeysFor_eq_nil (cfg : ConvergenceConfig) (cells : List String)
    (s : Snapshot) (d : DesiredLRP)
    (hq : NoActionNeeded cfg cells s d) :
    extraKeysFor s.domains cfg.now s.actuals d = [] := by
  rw [extraKeysFor]
  by_cases hfr : isFresh s.domains cfg.now d.domain = true
  · rw [if_pos hfr]
    rw [List.filter_eq_nil_iff.mpr]
    · rfl
    intro a ha habs
    rw [Bool.and_eq_true, Bool.and_eq_true] at habs
    obtain ⟨⟨hg, hnev⟩, hge⟩ := habs
    have hg' : a.processGuid = d.processGuid := beq_iff_eq.mp hg
    have hnev' : a.evacuating = false := by
      cases h : a.evacuating
      · rfl
      · rw [h] at hnev
        exact absurd hnev (by simp)
    have := ((hq.2.1 a ha hg').1 hnev').2 (of_decide_eq_true hge)
    rw [this] at hfr
    exact absurd hfr (by simp)
  · rw [if_neg hfr]

theorem missingCellKeysFor_eq_nil (cfg : ConvergenceConfig)
    (cells : List String) (s : Snapshot) (d : DesiredLRP)
    (hq : NoActionNeeded cfg cells s d) :
    missingCellKeysFor cells s.actuals d = [] := by
  rw [missingCellKeysFor]
  by_cases hce : cells.isEmpty = true
  · rw [if_pos hce]
    rw [List.filter_eq_nil_iff.mpr]
    · rfl
    intro a ha habs
    rw [Bool.and_eq_true] at habs
    have hg' : a.processGuid = d.processGuid := beq_iff_eq.mp habs.1
    have hev := hq.2.2 hce a ha hg'
    rw [hev] at habs
    exact absurd habs.2 (by simp)
  · rw [if_neg hce]
    rw [List.filter_eq_nil_iff.mpr]
    · rfl
    intro a ha habs
    rw [Bool.and_eq_true, Bool.and_eq_true, Bool.and_eq_true,
      Bool.and_eq_true] at habs
    obtain ⟨⟨⟨⟨hg, hnev⟩, hlt⟩, hst⟩, hcell⟩ := habs
    have hg' : a.processGuid = d.processGuid := beq_iff_eq.mp hg
    have hnev' : a.evacuating = false := by
      cases h : a.evacuating
      · rfl
      · rw [h] at hnev
        exact absurd hnev (by simp)
    have hst' : a.state = ActualState.claimed ∨ a.state = ActualState.running := by
      rw [Bool.or_eq_true] at hst
      rcases hst with h | h
      · exact Or.inl (beq_iff_eq.mp h)
      · exact Or.inr (beq_iff_eq.mp h)
    have := (((hq.2.1 a ha hg').1 hnev').1 (of_decide_eq_true hlt)).2.2 hst'
    rw [this] at hcell
    exact absurd hcell (by simp)


theorem startRequestFor_eq_some (cfg : ConvergenceConfig)
    (acts : List ActualLRP) (d : DesiredLRP) (req : StartRequest)
    (h : startRequestFor cfg acts d = some req) :
    req.processGuid = d.processGuid
      ∧ startIndicesLow cfg acts d ++ bridgeIndices acts d ≠ [] := by
  rw [startRequestFor] at h
  by_cases he : (startIndicesLow cfg acts d ++ bridgeIndices acts d).isEmpty
  · rw [if_pos he] at h
    exact absurd h (by simp)
  · rw [if_neg he] at h
    rw [Option.some.injEq] at h
    constructor
    · rw [← h]
    · intro hnil
      rw [hnil] at he
      exact he rfl

theorem transitionCrashed_of_no_range (cfg : ConvergenceConfig)
    (ds : List DesiredLRP) (a : ActualLRP)
    (h : ds.any (fun d => d.processGuid == a.processGuid &&
      decide (a.index < d.instances)) = false) :
    transitionCrashed cfg ds a = a := by
  simp [transitionCrashed, h]

theorem filter_keep_map_eq (keep : ActualLRP → Bool)
    (tr : ActualLRP → ActualLRP) (g : String)
    (htr : ∀ a, (tr a).processGuid = a.processGuid) :
    ∀ l : List ActualLRP,
      (∀ a ∈ l, a.processGuid = g → keep a = true ∧ tr a = a) →
      ((l.filter keep).map tr).filter (fun a => a.processGuid == g) =
        l.filter (fun a => a.processGuid == g)
  | [], _ => rfl
  | a :: t, h => by
      have ht := filter_keep_map_eq keep tr g htr t
        (fun b hb => h b (List.mem_cons_of_mem _ hb))
      by_cases hg : a.processGuid = g
      · obtain ⟨hk, htra⟩ := h a (List.mem_cons_self a t) hg
        rw [List.filter_cons, if_pos hk, List.map_cons, htra,
          List.filter_cons, List.filter_cons]
        rw [if_pos (by simp [hg]), if_pos (by simp [hg]), ht]
      · have hpa : (a.processGuid == g) = false := by
          simp [hg]
        cases hk : keep a
        · rw [List.filter_cons, if_neg (by simp [hk]), ht,
            List.filter_cons, if_neg (by simp [hpa])]
        · rw [List.filter_cons, if_pos hk, List.map_cons, List.filter_cons]
          rw [if_neg (by simp [htr a, hg]), ht, List.filter_cons,
            if_neg (by simp [hpa])]

/-- C8: DesiredLRP frame.  A convergence run never creates, mutates, or
deletes any DesiredLRP — unconditionally, for every run; and for every
DesiredLRP that needs no convergence action — all indices populated and
healthy, retirement of any out-of-range record suppressed by a non-fresh
domain, all evacuating records paired and unexpired (with unique
DesiredLRP guids) — its process guid appears in none of the three output
sets and its ActualLRPs are exactly the ones it had before the run. -/
theorem c8_desired_frame (cfg : ConvergenceConfig) (cells : List String)
    (s : Snapshot) :
    (converge cfg cells s).1.desireds = s.desireds
    ∧ (∀ d, (s.desireds.map (fun d => d.processGuid)).Nodup →
      d ∈ s.desireds → NoActionNeeded cfg cells s d →
      (∀ req ∈ (converge cfg cells s).2.1,
        req.processGuid ≠ d.processGuid)
      ∧ (∀ k ∈ (converge cfg cells s).2.2.2,
        k.processGuid ≠ d.processGuid)
      ∧ (∀ k ∈ (converge cfg cells s).2.2.1,
        k.key.processGuid ≠ d.processGuid)
      ∧ (converge cfg cells s).1.actuals.filter
          (fun a => a.processGuid == d.processGuid) =
        s.actuals.filter (fun a => a.processGuid == d.processGuid)) := by
  refine ⟨rfl, ?_⟩
  intro d hnd hd hq
  refine ⟨?_, ?_, ?_, ?_⟩
  · intro req hreq heq
    rw [show (converge cfg cells s).2.1 = startRequests cfg s from rfl,
      mem_startRequests] at hreq
    obtain ⟨d', hd', hsome⟩ := hreq
    obtain ⟨hg, hne⟩ := startRequestFor_eq_some cfg s.actuals d' req hsome
    have hdd : d' = d := by
      refine List.inj_on_of_nodup_map hnd hd' hd ?_
      rw [← hg, heq]
    rw [hdd] at hne
    rw [startIndicesLow_eq_nil cfg cells s d hq,
      bridgeIndices_eq_nil cfg cells s d hq] at hne
    exact hne rfl
  · intro k hk heq
    have hk' : k ∈ keysToRetire cfg.now s := hk
    rw [keysToRetire, List.mem_append] at hk'
    rcases hk' with hextra | horphan
    · rw [List.mem_flatten] at hextra
      obtain ⟨li, hli, hkli⟩ := hextra
      rw [List.mem_map] at hli
      obtain ⟨d', hd', rfl⟩ := hli
      rw [extraKeysFor] at hkli
      by_cases hfr : isFresh s.domains cfg.now d'.domain = true
      · rw [if_pos hfr, List.mem_map] at hkli
        obtain ⟨b, hbf, hbk⟩ := hkli
        rw [List.mem_filter, Bool.and_eq_true, Bool.and_eq_true] at hbf
        have hbg : b.processGuid = d'.processGuid := beq_iff_eq.mp hbf.2.1.1
        have hkg : k.processGuid = b.processGuid := by
          rw [← hbk]
          rfl
        have hdd : d' = d := by
          refine List.inj_on_of_nodup_map hnd hd' hd ?_
          rw [← hbg, ← hkg, heq]
        rw [hdd] at hfr hbg hbf
        have hnev : b.evacuating = false := by
          cases h : b.evacuating
          · rfl
          · have := hbf.2.1.2
            rw [h] at this
            exact absurd this (by simp)
        have hge : d.instances ≤ b.index := of_decide_eq_true hbf.2.2
        have := ((hq.2.1 b hbf.1 hbg).1 hnev).2 hge
        rw [this] at hfr
        exact absurd hfr (by simp)
      · rw [if_neg hfr] at hkli
        exact absurd hkli (List.not_mem_nil _)
    · rw [orphanKeys, List.mem_map] at horphan
      obtain ⟨b, hbf, hbk⟩ := horphan
      rw [List.mem_filter, Bool.and_eq_true, Bool.and_eq_true] at hbf
      have hkg : k.processGuid = b.processGuid := by
        rw [← hbk]
        rfl
      have hnodes := hbf.2.1.2
      have hdes : hasDesired s.desireds b.processGuid = true := by
        rw [hasDesired, List.any_eq_true]
        refine ⟨d, hd, ?_⟩
        rw [← hkg, heq]
        simp
      rw [hdes] at hnodes
      exact absurd hnodes (by simp)
  · intro k hk heq
    have hk' : k ∈ keysWithMissingCells cells s := hk
    rw [keysWithMissingCells, List.mem_flatten] at hk'
    obtain ⟨li, hli, hkli⟩ := hk'
    rw [List.mem_map] at hli
    obtain ⟨d', hd', rfl⟩ := hli
    by_cases hce : cells.isEmpty = true
    · rw [missingCellKeysFor, if_pos hce, List.mem_map] at hkli
      obtain ⟨b, hbf, hbk⟩ := hkli
      rw [List.mem_filter, Bool.and_eq_true] at hbf
      have hbg : b.processGuid = d'.processGuid := beq_iff_eq.mp hbf.2.1
      have hkg : k.key.processGuid = b.processGuid := by
        rw [← hbk]
        rfl
      have hdd : d' = d := by
        refine List.inj_on_of_nodup_map hnd hd' hd ?_
        rw [← hbg, ← hkg, heq]
      rw [hdd] at hbg
      have hev := hq.2.2 hce b hbf.1 hbg
      have hcontra := hbf.2.2
      rw [hev] at hcontra
      exact absurd hcontra (by simp)
    · rw [missingCellKeysFor, if_neg hce, List.mem_map] at hkli
      obtain ⟨b, hbf, hbk⟩ := hkli
      rw [List.mem_filter, Bool.and_eq_true, Bool.and_eq_true,
        Bool.and_eq_true, Bool.and_eq_true] at hbf
      have hbg : b.processGuid = d'.processGuid := beq_iff_eq.mp hbf.2.1.1.1.1
      have hkg : k.key.processGuid = b.processGuid := by
        rw [← hbk]
        rfl
      have hdd : d' = d := by
        refine List.inj_on_of_nodup_map hnd hd' hd ?_
        rw [← hbg, ← hkg, heq]
      rw [hdd] at hbf hbg
      obtain ⟨hbmem, ⟨⟨⟨-, hnev⟩, hlt⟩, hst⟩, hcell⟩ := hbf
      have hnev' : b.evacuating = false := by
        cases h : b.evacuating
        · rfl
        · rw [h] at hnev
          exact absurd hnev (by simp)
      have hst' : b.state = ActualState.claimed ∨ b.state = ActualState.running := by
        rw [Bool.or_eq_true] at hst
        rcases hst with h | h
        · exact Or.inl (beq_iff_eq.mp h)
        · exact Or.inr (beq_iff_eq.mp h)
      have := (((hq.2.1 b hbmem hbg).1 hnev').1 (of_decide_eq_true hlt)).2.2 hst'
      rw [this] at hcell
      exact absurd hcell (by simp)
  · show (newActuals cfg s).filter _ = _
    rw [newActuals, List.filter_append]
    have hins : (insertedActuals cfg s).filter
        (fun a => a.processGuid == d.processGuid) = [] := by
      rw [List.filter_eq_nil_iff]
      intro b hb habs
      rw [mem_insertedActuals] at hb
      obtain ⟨d', hd', i, hi, rfl⟩ := hb
      have hdd : d' = d := by
        refine List.inj_on_of_nodup_map hnd hd' hd ?_
        exact beq_iff_eq.mp habs
      rw [hdd] at hi
      rw [show ((List.range d.instances).filter
          (fun i => !hasNonEvacuating s.actuals d.processGuid i)) = []
          from ?_, bridgeIndices_eq_nil cfg cells s d hq] at hi
      · exact absurd hi (List.not_mem_nil _)
      · rw [List.filter_eq_nil_iff]
        intro i hi habs2
        rw [List.mem_range] at hi
        rw [hq.1 i hi] at habs2
        exact absurd habs2 (by simp)
    rw [hins, List.append_nil]
    refine filter_keep_map_eq _ _ d.processGuid
      (fun a => (transitionCrashed_fields cfg s.desireds a).1) s.actuals ?_
    intro a ha hag
    constructor
    · cases hev : a.evacuating
      · simp [hev]
      · have := ((hq.2.1 a ha hag).2 hev).2
        simp
        omega
    · cases hev : a.evacuating
      · by_cases hlt : a.index < d.instances
        · exact transitionCrashed_of_not_restartable cfg s.desireds a
            (((hq.2.1 a ha hag).1 hev).1 hlt).2.1
        · refine transitionCrashed_of_no_range cfg s.desireds a ?_
          cases hany : s.desireds.any (fun d' => d'.processGuid == a.processGuid &&
              decide (a.index < d'.instances))
          · rfl
          · rw [List.any_eq_true] at hany
            obtain ⟨d', hd', hcond⟩ := hany
            rw [Bool.and_eq_true] at hcond
            have hg' : d'.processGuid = a.processGuid := beq_iff_eq.mp hcond.1
            have hdd : d' = d := by
              refine List.inj_on_of_nodup_map hnd hd' hd ?_
              rw [hg', hag]
            rw [hdd] at hcond
            exact absurd (of_decide_eq_true hcond.2) hlt
      · exact transitionCrashed_of_evacuating cfg s.desireds a hev


/-- Witness for C8: a one-instance DesiredLRP with a healthy Claimed
record on a known cell needs no action and is untouched. -/
theorem c8_witness :
    (((Snapshot.mk [DesiredLRP.mk "g" "dom" 1 "si"]
        [ActualLRP.mk "g" 0 "dom" false ActualState.claimed "c1" 0 95 0]
        [DomainRow.mk "dom" 200]).desireds.map
          (fun d => d.processGuid)).Nodup
      ∧ NoActionNeeded (ConvergenceConfig.mk 100 30 3) ["c1"]
        (Snapshot.mk [DesiredLRP.mk "g" "dom" 1 "si"]
          [ActualLRP.mk "g" 0 "dom" false ActualState.claimed "c1" 0 95 0]
          [DomainRow.mk "dom" 200]) (DesiredLRP.mk "g" "dom" 1 "si"))
    ∧ ((converge (ConvergenceConfig.mk 100 30 3) ["c1"]
        (Snapshot.mk [DesiredLRP.mk "g" "dom" 1 "si"]
          [ActualLRP.mk "g" 0 "dom" false ActualState.claimed "c1" 0 95 0]
          [DomainRow.mk "dom" 200])).1.desireds =
        [DesiredLRP.mk "g" "dom" 1 "si"]
      ∧ (∀ req ∈ (converge (ConvergenceConfig.mk 100 30 3) ["c1"]
          (Snapshot.mk [DesiredLRP.mk "g" "dom" 1 "si"]
            [ActualLRP.mk "g" 0 "dom" false ActualState.claimed "c1" 0 95 0]
            [DomainRow.mk "dom" 200])).2.1, req.processGuid ≠ "g")
      ∧ (∀ k ∈ (converge (ConvergenceConfig.mk 100 30 3) ["c1"]
          (Snapshot.mk [DesiredLRP.mk "g" "dom" 1 "si"]
            [ActualLRP.mk "g" 0 "dom" false ActualState.claimed "c1" 0 95 0]
            [DomainRow.mk "dom" 200])).2.2.2, k.processGuid ≠ "g")
      ∧ (∀ k ∈ (converge (ConvergenceConfig.mk 100 30 3) ["c1"]
          (Snapshot.mk [DesiredLRP.mk "g" "dom" 1 "si"]
            [ActualLRP.mk "g" 0 "dom" false ActualState.claimed "c1" 0 95 0]
            [DomainRow.mk "dom" 200])).2.2.1, k.key.processGuid ≠ "g")
      ∧ (converge (ConvergenceConfig.mk 100 30 3) ["c1"]
          (Snapshot.mk [DesiredLRP.mk "g" "dom" 1 "si"]
            [ActualLRP.mk "g" 0 "dom" false ActualState.claimed "c1" 0 95 0]
            [DomainRow.mk "dom" 200])).1.actuals.filter
            (fun a => a.processGuid == "g") =
        [ActualLRP.mk "g" 0 "dom" false ActualState.claimed "c1" 0 95 0].filter
          (fun a => a.processGuid == "g")) :=
  ⟨⟨by decide, by decide⟩,
    ⟨(c8_desired_frame (ConvergenceConfig.mk 100 30 3) ["c1"]
        (Snapshot.mk [DesiredLRP.mk "g" "dom" 1 "si"]
          [ActualLRP.mk "g" 0 "dom" false ActualState.claimed "c1" 0 95 0]
          [DomainRow.mk "dom" 200])).1,
      (c8_desired_frame (ConvergenceConfig.mk 100 30 3) ["c1"]
        (Snapshot.mk [DesiredLRP.mk "g" "dom" 1 "si"]
          [ActualLRP.mk "g" 0 "dom" false ActualState.claimed "c1" 0 95 0]
          [DomainRow.mk "dom" 200])).2
        (DesiredLRP.mk "g" "dom" 1 "si") (by decide) (by decide) (by decide)⟩⟩

end BBS
